import Mathlib

/-!
Pseudo-terminal driver (`drivers/tty/ptty.c`).

A shallow embedding of the pseudo-terminal driver of Book-OS: the five dispatch
handlers `ptty_open`, `ptty_close`, `ptty_read`, `ptty_write`, `ptty_devctl`, the
driver hooks `ptty_enter` and `ptty_exit`, and the state they act on (the device
registry of the driver and the table of live pipes).

Pointers are handles (`Nat`); a `NULL` pointer is `none`.  The machine is i386
(`mach-i386`): `int` and `unsigned long` are both 32 bits wide.
-/

namespace Ptty

/-! ## Data model -/

/-- Modelled from the spec: the request status `iostatus_t` of `xbook/driver.h`, which
is not part of this file; a request completes with success or with a failure. -/
inductive iostatus_t where
  | IO_SUCCESS
  | IO_FAILED
  deriving DecidableEq, Repr

/-- Device type tag of the master end (first enumerator of the anonymous enum). -/
def PTTY_MASTER : Int := 0

/-- Device type tag of the slave end (second enumerator of the anonymous enum). -/
def PTTY_SLAVE : Int := 1

/-- Size of the master pool (`#define NR_PTM 8`). -/
def NR_PTM : Nat := 8

/-- Name stem of a master device. -/
def DEV_NAME_MASTER : String := "ptm"

/-- Name stem of a slave device. -/
def DEV_NAME_SLAVE : String := "pts"

/-- The per-device record `device_extension_t`; `slave`, `pipe_in` and `pipe_out`
are pointers, `none` being `NULL`. -/
structure device_extension_t where
  locked : Int
  slave : Option Nat
  type : Int
  device_id : Int
  pipe_in : Option Nat
  pipe_out : Option Nat
  deriving DecidableEq, Repr

/-- Modelled from the spec: the device object of `xbook/driver.h`, which is not part
of this file, reduced to what the driver touches: the name given at registration, the
`flags` word and the extension. -/
structure device_object_t where
  name : String
  flags : Nat
  device_extension : device_extension_t
  deriving DecidableEq, Repr

/-- Modelled from the spec: the pipe object of `xbook/pipe.h`, which is not part of
this file.  A channel is a byte stream; it is kept as its identifier and the FIFO
queue of the bytes written and not yet read. -/
structure pipe_t where
  id : Nat
  fifo : List Nat
  deriving DecidableEq, Repr

/-- The state the driver acts on: the devices registered for the driver (handle and
object), the live pipes, and the capacity of a pipe buffer (a constant of the pipe
transport, declared outside this file). -/
structure Kernel where
  devices : List (Nat × device_object_t)
  pipes : List pipe_t
  pipe_size : Nat
  deriving DecidableEq, Repr

/-- A memory fault of the C code: a handler entered on a pointer to no registered
device, or the dereference of a `NULL` pipe pointer. -/
inductive fault where
  | bad_device
  | null_pipe
  deriving DecidableEq, Repr

/-- What a handler hands back: its return value, the two fields of
`ioreq->io_status` (`infomation` holds the value assigned to it, as an integer), the
bytes stored in `ioreq->user_buffer` and the word stored through
`ioreq->parame.devctl.arg` (`none`: nothing was stored). -/
structure io_result where
  ret : iostatus_t
  status : iostatus_t
  infomation : Int
  user_buffer : List Nat
  arg : Option Nat
  deriving DecidableEq, Repr

/-- Modelled from the spec: the control codes of `sys/ioctl.h`, which is not part of
this file: "get slave number", "set slave lock", and any other code. -/
inductive devctl_code where
  | TIOCGPTN
  | TIOCSPTLCK
  | other (code : Nat)
  deriving DecidableEq, Repr

/-- Outcome of the three allocations of a master open, decided by the collaborators:
whether the first and the second `create_pipe` succeed and the status
`io_create_device` returns. -/
structure open_env where
  pipe_in : Bool
  pipe_out : Bool
  create_dev : iostatus_t
  deriving DecidableEq, Repr

/-! ## Registry and pipe table -/

/-- The object registered under handle `h`. -/
def dev_lookup (h : Nat) : List (Nat × device_object_t) → Option device_object_t
  | [] => none
  | (h', d) :: rest => if h' = h then some d else dev_lookup h rest

/-- A handle no registered device has. -/
def fresh_dev (l : List (Nat × device_object_t)) : Nat :=
  (l.map (fun p => p.1 + 1)).foldr max 0

/-- An identifier no live pipe has. -/
def fresh_pipe (l : List pipe_t) : Nat :=
  (l.map (fun p => p.id + 1)).foldr max 0

/-- The live pipe with identifier `id`. -/
def pipe_find (id : Nat) : List pipe_t → Option pipe_t
  | [] => none
  | p :: rest => if p.id = id then some p else pipe_find id rest

/-- The registry without the object under handle `h`. -/
def dev_remove (h : Nat) : List (Nat × device_object_t) → List (Nat × device_object_t)
  | [] => []
  | (h', d) :: rest => if h' = h then dev_remove h rest else (h', d) :: dev_remove h rest

/-- The pipe table without pipe `id`. -/
def pipe_remove (id : Nat) : List pipe_t → List pipe_t
  | [] => []
  | p :: rest => if p.id = id then pipe_remove id rest else p :: pipe_remove id rest

/-- Replace the queue of pipe `id`. -/
def pipe_set (id : Nat) (fifo : List Nat) (l : List pipe_t) : List pipe_t :=
  l.map (fun p => if p.id = id then { p with fifo := fifo } else p)

/-- The kernel in which the queue of pipe `id` is `fifo`. -/
def set_fifo (id : Nat) (fifo : List Nat) (k : Kernel) : Kernel :=
  { k with pipes := pipe_set id fifo k.pipes }

/-- Store into the fields of the object under handle `h`. -/
def obj_write (h : Nat) (f : device_object_t → device_object_t) (k : Kernel) : Kernel :=
  { k with devices := k.devices.map (fun p => if p.1 = h then (p.1, f p.2) else p) }

/-- Store into the fields of the extension of the object under handle `h`. -/
def ext_write (h : Nat) (f : device_extension_t → device_extension_t) (k : Kernel) : Kernel :=
  obj_write h (fun o => { o with device_extension := f o.device_extension }) k

/-- The extension a freshly created device object carries before the driver fills
it in. -/
def blank_extension : device_extension_t :=
  { locked := 0, slave := none, type := 0, device_id := 0, pipe_in := none, pipe_out := none }

/-! ## Collaborators -/

/-- Modelled from the spec: `create_pipe` of the pipe transport (`create() -> handle |
failure`).  On success a new, empty pipe with an unused identifier is live. -/
def create_pipe (ok : Bool) (k : Kernel) : Option Nat × Kernel :=
  if ok then
    (some (fresh_pipe k.pipes),
      { k with pipes := k.pipes ++ [{ id := fresh_pipe k.pipes, fifo := [] }] })
  else (none, k)

/-- Modelled from the spec: `destroy_pipe` of the pipe transport (`destroy(handle)`):
the pipe is live no more. -/
def destroy_pipe (p : Option Nat) (k : Kernel) : Kernel :=
  match p with
  | none => k
  | some id => { k with pipes := pipe_remove id k.pipes }

/-- Modelled from the spec: `pipe_read` of the pipe transport (`read(handle, buffer,
length) -> bytes_transferred | negative-on-failure`).  The transport may fail with
any negative result (`err = some n` stands for `-(n+1)`); a pipe that is not live is
not found; otherwise up to `len` bytes leave the head of the queue. -/
def pipe_read (err : Option Nat) (id : Nat) (len : Int) (k : Kernel) :
    Int × List Nat × Kernel :=
  match err with
  | some n => (Int.negSucc n, [], k)
  | none =>
    match pipe_find id k.pipes with
    | none => (-1, [], k)
    | some p =>
      ((p.fifo.take len.toNat).length, p.fifo.take len.toNat,
        set_fifo id (p.fifo.drop len.toNat) k)

/-- Modelled from the spec: `pipe_write` of the pipe transport (`write(handle, buffer,
length) -> bytes_transferred | negative-on-failure`).  The transport may fail with
any negative result; a pipe that is not live is not found; otherwise as many of the
first `len` bytes of the buffer as the free room of the pipe allows join the tail of
the queue. -/
def pipe_write (err : Option Nat) (id : Nat) (buf : List Nat) (len : Int) (k : Kernel) :
    Int × Kernel :=
  match err with
  | some n => (Int.negSucc n, k)
  | none =>
    match pipe_find id k.pipes with
    | none => (-1, k)
    | some p =>
      let data := buf.take (min len.toNat (k.pipe_size - p.fifo.length))
      (data.length, set_fifo id (p.fifo ++ data) k)

/-- Modelled from the spec: `io_create_device` of the device framework
(`register(name, kind) -> handle | failure`).  The framework decides the status; on
success a new object with the given name is registered under an unused handle. -/
def io_create_device (st : iostatus_t) (name : String) (k : Kernel) :
    iostatus_t × Option Nat × Kernel :=
  match st with
  | .IO_SUCCESS =>
    (.IO_SUCCESS, some (fresh_dev k.devices),
      { k with devices := k.devices ++
          [(fresh_dev k.devices,
            { name := name, flags := 0, device_extension := blank_extension })] })
  | st => (st, none, k)

/-- Modelled from the spec: `io_delete_device` of the device framework
(`unregister(handle)`). -/
def io_delete_device (h : Nat) (k : Kernel) : Kernel :=
  { k with devices := dev_remove h k.devices }

/-- The tail shared by open, close and devctl: the status goes to
`ioreq->io_status.status`, `0` to `ioreq->io_status.infomation`, and the status is
returned. -/
def complete (k : Kernel) (status : iostatus_t) (arg : Option Nat) :
    Except fault (Kernel × io_result) :=
  .ok (k, { ret := status, status := status, infomation := 0, user_buffer := [], arg := arg })

/-- Conversion of an `unsigned long` to `int`, both 32 bits wide. -/
def ulong_to_int (v : Nat) : Int :=
  if v % 2 ^ 32 < 2 ^ 31 then ((v % 2 ^ 32 : Nat) : Int) else ((v % 2 ^ 32 : Nat) : Int) - 2 ^ 32

/-- Conversion of an `int` to `unsigned long`, both 32 bits wide. -/
def int_to_ulong (i : Int) : Nat :=
  (i % 2 ^ 32).toNat

/-! ## The handlers -/

/-- The handler `ptty_open`. -/
def ptty_open (k : Kernel) (device : Nat) (env : open_env) :
    Except fault (Kernel × io_result) :=
  match dev_lookup device k.devices with
  | none => .error .bad_device
  | some d =>
    if d.device_extension.type = PTTY_MASTER then
      match create_pipe env.pipe_in k with
      | (none, k1) => complete k1 .IO_FAILED none
      | (some pipe_in, k1) =>
        match create_pipe env.pipe_out k1 with
        | (none, k2) => complete (destroy_pipe (some pipe_in) k2) .IO_FAILED none
        | (some pipe_out, k2) =>
          match io_create_device env.create_dev
              (DEV_NAME_SLAVE ++ toString d.device_extension.device_id) k2 with
          | (status, devobj, k3) =>
            if status ≠ .IO_SUCCESS then
              complete (destroy_pipe (some pipe_in) (destroy_pipe (some pipe_out) k3)) status none
            else
              match devobj with
              | none => .error .bad_device
              | some devobj =>
                let k4 := obj_write devobj (fun o => { o with flags := 0 }) k3
                let k5 := ext_write devobj (fun e =>
                  { e with type := PTTY_SLAVE, device_id := d.device_extension.device_id }) k4
                let k6 := ext_write device (fun e =>
                  { e with pipe_in := some pipe_in, pipe_out := some pipe_out,
                           slave := some devobj }) k5
                let k7 := ext_write devobj (fun e =>
                  { e with pipe_in := some pipe_out, pipe_out := some pipe_in,
                           slave := none, locked := 1 }) k6
                complete k7 .IO_SUCCESS none
    else if d.device_extension.locked ≠ 0 then
      complete k .IO_FAILED none
    else
      complete k .IO_SUCCESS none

/-- The handler `ptty_close`. -/
def ptty_close (k : Kernel) (device : Nat) : Except fault (Kernel × io_result) :=
  match dev_lookup device k.devices with
  | none => .error .bad_device
  | some d =>
    if d.device_extension.type = PTTY_MASTER then
      match d.device_extension.slave with
      | none => complete k .IO_FAILED none
      | some devobj =>
        match dev_lookup devobj k.devices with
        | none => .error .bad_device
        | some _ =>
          let k1 := io_delete_device devobj k
          let k2 := destroy_pipe d.device_extension.pipe_in k1
          let k3 := destroy_pipe d.device_extension.pipe_out k2
          let k4 := ext_write device (fun e =>
            { e with slave := none, pipe_in := none, pipe_out := none }) k3
          complete k4 .IO_SUCCESS none
    else if d.device_extension.locked ≠ 0 then
      complete k .IO_FAILED none
    else
      complete k .IO_SUCCESS none

/-- The handler `ptty_read`: `status` starts as `IO_FAILED` and becomes `IO_SUCCESS`
unless the pipe read is negative; `infomation` receives `len` on both paths. -/
def ptty_read (k : Kernel) (device : Nat) (length : Int) (err : Option Nat) :
    Except fault (Kernel × io_result) :=
  match dev_lookup device k.devices with
  | none => .error .bad_device
  | some d =>
    match d.device_extension.pipe_in with
    | none => .error .null_pipe
    | some p =>
      match pipe_read err p length k with
      | (len, buf, k1) =>
        let status := if len < 0 then iostatus_t.IO_FAILED else iostatus_t.IO_SUCCESS
        .ok (k1, { ret := status, status := status, infomation := len,
                   user_buffer := buf, arg := none })

/-- The handler `ptty_write`: `status` starts as `IO_SUCCESS`, the error path jumps
over an assignment of `IO_SUCCESS`; `infomation` receives `len` on both paths. -/
def ptty_write (k : Kernel) (device : Nat) (user_buffer : List Nat) (length : Int)
    (err : Option Nat) : Except fault (Kernel × io_result) :=
  match dev_lookup device k.devices with
  | none => .error .bad_device
  | some d =>
    match d.device_extension.pipe_out with
    | none => .error .null_pipe
    | some p =>
      match pipe_write err p user_buffer length k with
      | (len, k1) =>
        let status := if len < 0 then iostatus_t.IO_SUCCESS else iostatus_t.IO_SUCCESS
        .ok (k1, { ret := status, status := status, infomation := len,
                   user_buffer := [], arg := none })

/-- The handler `ptty_devctl`; `arg` is the word `ioreq->parame.devctl.arg` points
to. -/
def ptty_devctl (k : Kernel) (device : Nat) (code : devctl_code) (arg : Nat) :
    Except fault (Kernel × io_result) :=
  match dev_lookup device k.devices with
  | none => .error .bad_device
  | some d =>
    match code with
    | .TIOCGPTN =>
      match d.device_extension.slave with
      | some s =>
        match dev_lookup s k.devices with
        | none => .error .bad_device
        | some ds => complete k .IO_SUCCESS (some (int_to_ulong ds.device_extension.device_id))
      | none => complete k .IO_FAILED none
    | .TIOCSPTLCK =>
      match d.device_extension.slave with
      | some s =>
        match dev_lookup s k.devices with
        | none => .error .bad_device
        | some _ =>
          complete (ext_write s (fun e => { e with locked := ulong_to_int arg }) k)
            .IO_SUCCESS none
      | none => complete k .IO_FAILED none
    | .other _ => complete k .IO_SUCCESS none

/-- The loop of `ptty_enter`, with `n` iterations to go and the counter at `i`;
`reg i` is the status the framework gives the registration of master `i`. -/
def ptty_enter_loop (reg : Nat → iostatus_t) : Nat → Nat → Kernel →
    Except fault (iostatus_t × Kernel)
  | 0, _, k => .ok (.IO_SUCCESS, k)
  | n + 1, i, k =>
    match io_create_device (reg i) (DEV_NAME_MASTER ++ toString i) k with
    | (status, devobj, k1) =>
      if status ≠ .IO_SUCCESS then .ok (status, k1)
      else
        match devobj with
        | none => .error .bad_device
        | some devobj =>
          let k2 := obj_write devobj (fun o => { o with flags := 0 }) k1
          let k3 := ext_write devobj (fun e =>
            { e with type := PTTY_MASTER, device_id := (i : Int), pipe_in := none,
                     pipe_out := none, slave := none, locked := 0 }) k2
          ptty_enter_loop reg n (i + 1) k3

/-- The driver hook `ptty_enter`. -/
def ptty_enter (reg : Nat → iostatus_t) (k : Kernel) : Except fault (iostatus_t × Kernel) :=
  ptty_enter_loop reg NR_PTM 0 k

/-- The driver hook `ptty_exit`: every device on the driver's list is deleted. -/
def ptty_exit (k : Kernel) : iostatus_t × Kernel :=
  (.IO_SUCCESS, k.devices.foldl (fun acc p => io_delete_device p.1 acc) k)

/-! ## Requests and reachable states -/

/-- A request an outside caller issues on a device, with what the collaborators
decide while it is served. -/
inductive io_request_t where
  | IOREQ_OPEN (env : open_env)
  | IOREQ_CLOSE
  | IOREQ_READ (length : Int) (err : Option Nat)
  | IOREQ_WRITE (user_buffer : List Nat) (length : Int) (err : Option Nat)
  | IOREQ_DEVCTL (code : devctl_code) (arg : Nat)
  deriving DecidableEq, Repr

/-- The dispatch table set up by `ptty_driver_func`. -/
def dispatch (k : Kernel) (device : Nat) : io_request_t → Except fault (Kernel × io_result)
  | .IOREQ_OPEN env => ptty_open k device env
  | .IOREQ_CLOSE => ptty_close k device
  | .IOREQ_READ length err => ptty_read k device length err
  | .IOREQ_WRITE user_buffer length err => ptty_write k device user_buffer length err
  | .IOREQ_DEVCTL code arg => ptty_devctl k device code arg

/-- The extension of the device registered under handle `h`. -/
def ext_of (k : Kernel) (h : Nat) : Option device_extension_t :=
  (dev_lookup h k.devices).map (fun d => d.device_extension)

/-- Pipe `id` is live. -/
def pipe_live (k : Kernel) (id : Nat) : Prop :=
  (pipe_find id k.pipes).isSome = true

/-- The queue of pipe `id`. -/
def fifo_of (k : Kernel) (id : Nat) : Option (List Nat) :=
  (pipe_find id k.pipes).map (fun p => p.fifo)

/-- The kernel before the driver is loaded: no device of the driver, no pipe. -/
def empty_kernel (pipe_size : Nat) : Kernel :=
  { devices := [], pipes := [], pipe_size := pipe_size }

/-- A master as `ptty_enter` leaves it. -/
def master_object (i : Nat) : device_object_t :=
  { name := DEV_NAME_MASTER ++ toString i, flags := 0,
    device_extension :=
      { locked := 0, slave := none, type := PTTY_MASTER, device_id := (i : Int),
        pipe_in := none, pipe_out := none } }

/-- The state after a successful `ptty_enter` on the empty kernel. -/
def start (pipe_size : Nat) : Kernel :=
  { devices := (List.range NR_PTM).map (fun i => (i, master_object i)),
    pipes := [], pipe_size := pipe_size }

/-- The states the driver can be in: the start state, and every state a served
request leads to. -/
inductive Reachable : Kernel → Prop where
  | start (pipe_size : Nat) : Reachable (start pipe_size)
  | step {k k' : Kernel} {r : io_result} (device : Nat) (req : io_request_t) :
      Reachable k → dispatch k device req = .ok (k', r) → Reachable k'

/-- The extension of a slave as a successful master open leaves it, for a master with
identifier `id` whose channels are `pipe_in` and `pipe_out`. -/
def slave_extension (id : Int) (pipe_in pipe_out : Nat) : device_extension_t :=
  { locked := 1, slave := none, type := PTTY_SLAVE, device_id := id,
    pipe_in := some pipe_out, pipe_out := some pipe_in }

/-- The state after a request is served (the same state when the request faults). -/
def after (k : Kernel) (device : Nat) (req : io_request_t) : Kernel :=
  match dispatch k device req with
  | .ok (k', _) => k'
  | .error _ => k

/-- Every allocation of a master open succeeds. -/
def all_ok : open_env :=
  { pipe_in := true, pipe_out := true, create_dev := .IO_SUCCESS }

/-- The start state with pipes of 16 bytes, after master 0 was opened: slave 8 is
registered and locked, channels 0 and 1 are live and empty. -/
def opened : Kernel :=
  after (start 16) 0 (.IOREQ_OPEN all_ok)

/-- The state `opened` after the byte `1` was written on master 0 and not yet read. -/
def residue : Kernel :=
  after opened 0 (.IOREQ_WRITE [1] 1 none)

/-- The state `opened` after slave 8 was unlocked through master 0. -/
def unlocked : Kernel :=
  after opened 0 (.IOREQ_DEVCTL .TIOCSPTLCK 0)

/-- The bytes of `"hello"`. -/
def hello : List Nat := [104, 101, 108, 108, 111]

/-- The wiring invariant of the driver.  Handles below `NR_PTM` are the masters, the
others are slaves; a master with a slave mirrors the channels of that slave; every
slave has two distinct live channels; two slaves share no channel. -/
structure Inv (k : Kernel) : Prop where
  master : ∀ m, m < NR_PTM → ∃ e, ext_of k m = some e ∧ e.type = PTTY_MASTER ∧
    e.device_id = (m : Int) ∧
    (e.slave = none → e.pipe_in = none ∧ e.pipe_out = none) ∧
    (∀ s, e.slave = some s → NR_PTM ≤ s ∧ ∃ es, ext_of k s = some es ∧
      es.device_id = (m : Int) ∧ es.pipe_in = e.pipe_out ∧ es.pipe_out = e.pipe_in)
  slave : ∀ s es, NR_PTM ≤ s → ext_of k s = some es →
    es.type = PTTY_SLAVE ∧ es.slave = none ∧
    ∃ a b, es.pipe_out = some a ∧ es.pipe_in = some b ∧ a ≠ b ∧ pipe_live k a ∧ pipe_live k b
  disjoint : ∀ s1 s2 e1 e2, s1 ≠ s2 → NR_PTM ≤ s1 → NR_PTM ≤ s2 →
    ext_of k s1 = some e1 → ext_of k s2 = some e2 →
    e1.pipe_in ≠ e2.pipe_in ∧ e1.pipe_in ≠ e2.pipe_out ∧
    e1.pipe_out ≠ e2.pipe_in ∧ e1.pipe_out ≠ e2.pipe_out

/-- Two states with the same devices, wired the same way (only `locked` may differ),
and the same live pipes. -/
def same_wiring (k k' : Kernel) : Prop :=
  (∀ h e, ext_of k h = some e → ∃ e', ext_of k' h = some e' ∧ e'.slave = e.slave ∧
    e'.type = e.type ∧ e'.device_id = e.device_id ∧ e'.pipe_in = e.pipe_in ∧
    e'.pipe_out = e.pipe_out) ∧
  (∀ h e', ext_of k' h = some e' → ∃ e, ext_of k h = some e ∧ e'.slave = e.slave ∧
    e'.type = e.type ∧ e'.device_id = e.device_id ∧ e'.pipe_in = e.pipe_in ∧
    e'.pipe_out = e.pipe_out) ∧
  (∀ id, pipe_live k' id ↔ pipe_live k id)

end Ptty

namespace Ptty

/-! ## The registry and the pipe table: basic facts -/

theorem dev_lookup_lt_fresh {h : Nat} {l : List (Nat × device_object_t)} {d : device_object_t}
    (hl : dev_lookup h l = some d) : h < fresh_dev l := by
  induction l with
  | nil => simp [dev_lookup] at hl
  | cons p rest ih =>
    obtain ⟨h', d'⟩ := p
    have hf : fresh_dev ((h', d') :: rest) = max (h' + 1) (fresh_dev rest) := rfl
    rw [hf]
    by_cases e : h' = h
    · subst e; omega
    · simp only [dev_lookup, e, if_false] at hl
      have := ih hl
      omega

theorem dev_lookup_fresh (l : List (Nat × device_object_t)) :
    dev_lookup (fresh_dev l) l = none := by
  cases e : dev_lookup (fresh_dev l) l with
  | none => rfl
  | some d => exact absurd (dev_lookup_lt_fresh e) (lt_irrefl _)

theorem dev_lookup_append (h x : Nat) (d : device_object_t) (l : List (Nat × device_object_t)) :
    dev_lookup h (l ++ [(x, d)]) =
      if (dev_lookup h l).isSome then dev_lookup h l else if x = h then some d else none := by
  induction l with
  | nil => simp [dev_lookup]
  | cons p rest ih =>
    obtain ⟨h', d'⟩ := p
    by_cases e : h' = h
    · simp [dev_lookup, e]
    · simp [dev_lookup, e, ih]

theorem dev_lookup_map (h x : Nat) (f : device_object_t → device_object_t)
    (l : List (Nat × device_object_t)) :
    dev_lookup h (l.map (fun p => if p.1 = x then (p.1, f p.2) else p)) =
      if h = x then (dev_lookup h l).map f else dev_lookup h l := by
  induction l with
  | nil => simp [dev_lookup]
  | cons p rest ih =>
    obtain ⟨h', d'⟩ := p
    have hm : ((h', d') :: rest).map (fun p => if p.1 = x then (p.1, f p.2) else p) =
        (if h' = x then (h', f d') else (h', d')) ::
          rest.map (fun p => if p.1 = x then (p.1, f p.2) else p) := rfl
    rw [hm]
    by_cases e2 : h' = x
    · rw [if_pos e2]
      by_cases e : h' = h
      · have e3 : h = x := by omega
        simp [dev_lookup, e, e3]
      · have e3 : ¬ h = x := by omega
        simp only [dev_lookup, e, if_false, ih, e3]
    · rw [if_neg e2]
      by_cases e : h' = h
      · have e3 : ¬ h = x := by omega
        simp [dev_lookup, e, e3]
      · simp only [dev_lookup, e, if_false, ih]

theorem dev_lookup_remove (h x : Nat) (l : List (Nat × device_object_t)) :
    dev_lookup h (dev_remove x l) = if h = x then none else dev_lookup h l := by
  induction l with
  | nil => simp [dev_lookup, dev_remove]
  | cons p rest ih =>
    obtain ⟨h', d'⟩ := p
    by_cases e2 : h' = x
    · subst e2
      rw [show dev_remove h' ((h', d') :: rest) = dev_remove h' rest by simp [dev_remove], ih]
      by_cases e : h' = h
      · subst e; simp
      · have e3 : ¬ h = h' := fun c => e c.symm
        simp [dev_lookup, e, e3]
    · rw [show dev_remove x ((h', d') :: rest) = (h', d') :: dev_remove x rest by
        simp [dev_remove, e2]]
      by_cases e : h' = h
      · subst e; simp [dev_lookup, e2]
      · simp [dev_lookup, e, ih]

theorem pipe_find_id {id : Nat} {l : List pipe_t} {p : pipe_t} (hl : pipe_find id l = some p) :
    p.id = id := by
  induction l with
  | nil => simp [pipe_find] at hl
  | cons q rest ih =>
    by_cases e : q.id = id
    · simp only [pipe_find, e, if_true, Option.some.injEq] at hl
      subst hl; exact e
    · simp only [pipe_find, e, if_false] at hl
      exact ih hl

theorem pipe_find_lt_fresh {id : Nat} {l : List pipe_t} {p : pipe_t}
    (hl : pipe_find id l = some p) : id < fresh_pipe l := by
  induction l with
  | nil => simp [pipe_find] at hl
  | cons q rest ih =>
    have hf : fresh_pipe (q :: rest) = max (q.id + 1) (fresh_pipe rest) := rfl
    rw [hf]
    by_cases e : q.id = id
    · omega
    · simp only [pipe_find, e, if_false] at hl
      have := ih hl
      omega

theorem pipe_find_fresh (l : List pipe_t) : pipe_find (fresh_pipe l) l = none := by
  cases e : pipe_find (fresh_pipe l) l with
  | none => rfl
  | some d => exact absurd (pipe_find_lt_fresh e) (lt_irrefl _)

theorem pipe_find_append (id : Nat) (q : pipe_t) (l : List pipe_t) :
    pipe_find id (l ++ [q]) =
      if (pipe_find id l).isSome then pipe_find id l else if q.id = id then some q else none := by
  induction l with
  | nil => simp [pipe_find]
  | cons p rest ih =>
    by_cases e : p.id = id
    · simp [pipe_find, e]
    · simp [pipe_find, e, ih]

theorem pipe_find_remove (id x : Nat) (l : List pipe_t) :
    pipe_find id (pipe_remove x l) = if id = x then none else pipe_find id l := by
  induction l with
  | nil => simp [pipe_find, pipe_remove]
  | cons p rest ih =>
    by_cases e2 : p.id = x
    · subst e2
      rw [show pipe_remove p.id (p :: rest) = pipe_remove p.id rest by simp [pipe_remove], ih]
      by_cases e : p.id = id
      · subst e; simp
      · have e3 : ¬ id = p.id := fun c => e c.symm
        simp [pipe_find, e, e3]
    · rw [show pipe_remove x (p :: rest) = p :: pipe_remove x rest by simp [pipe_remove, e2]]
      by_cases e : p.id = id
      · subst e; simp [pipe_find, e2]
      · simp [pipe_find, e, ih]

theorem pipe_find_set (id x : Nat) (fifo : List Nat) (l : List pipe_t) :
    pipe_find id (pipe_set x fifo l) =
      if id = x then (pipe_find id l).map (fun p => { p with fifo := fifo })
      else pipe_find id l := by
  induction l with
  | nil => simp [pipe_find, pipe_set]
  | cons p rest ih =>
    have hs : pipe_set x fifo (p :: rest) =
        (if p.id = x then { p with fifo := fifo } else p) :: pipe_set x fifo rest := rfl
    rw [hs]
    by_cases e2 : p.id = x
    · rw [if_pos e2]
      by_cases e : p.id = id
      · have e3 : id = x := by omega
        simp [pipe_find, e, e3]
      · have e3 : ¬ id = x := by omega
        have e4 : ¬ x = id := fun c => e3 c.symm
        simp [pipe_find, e, e3, e4, ih]
    · rw [if_neg e2]
      by_cases e : p.id = id
      · have e3 : ¬ id = x := by omega
        simp [pipe_find, e, e3]
      · simp [pipe_find, e, ih]

theorem pipe_remove_absent (l : List pipe_t) (x : Nat) (hx : ∀ p ∈ l, p.id < x) :
    pipe_remove x l = l := by
  induction l with
  | nil => rfl
  | cons q rest ih =>
    have h1 : ¬ q.id = x := by
      have := hx q (List.mem_cons_self _ _)
      omega
    have h2 : ∀ p ∈ rest, p.id < x := fun p hp => hx p (List.mem_cons_of_mem _ hp)
    simp only [pipe_remove, h1, if_false, ih h2]

theorem pipe_remove_append_fresh (l : List pipe_t) (x : Nat) (fifo : List Nat)
    (hx : ∀ p ∈ l, p.id < x) : pipe_remove x (l ++ [{ id := x, fifo := fifo }]) = l := by
  induction l with
  | nil => simp [pipe_remove]
  | cons q rest ih =>
    have h1 : ¬ q.id = x := by
      have := hx q (List.mem_cons_self _ _)
      omega
    have h2 : ∀ p ∈ rest, p.id < x := fun p hp => hx p (List.mem_cons_of_mem _ hp)
    rw [List.cons_append]
    simp only [pipe_remove, h1, if_false, ih h2]

theorem lt_fresh_pipe (l : List pipe_t) : ∀ p ∈ l, p.id < fresh_pipe l := by
  induction l with
  | nil => simp
  | cons q rest ih =>
    have hf : fresh_pipe (q :: rest) = max (q.id + 1) (fresh_pipe rest) := rfl
    intro p hp
    rw [hf]
    rcases List.mem_cons.mp hp with h | h
    · subst h; omega
    · have := ih p h; omega

/-! ## How the stores and the collaborators act on what is observed -/

theorem ext_of_some {k : Kernel} {h : Nat} {e : device_extension_t} (he : ext_of k h = some e) :
    ∃ d, dev_lookup h k.devices = some d ∧ d.device_extension = e := by
  unfold ext_of at he
  cases hd : dev_lookup h k.devices with
  | none => rw [hd] at he; simp at he
  | some d => rw [hd] at he; exact ⟨d, rfl, by simpa using he⟩

theorem ext_of_lookup {k : Kernel} {h : Nat} {d : device_object_t}
    (hd : dev_lookup h k.devices = some d) : ext_of k h = some d.device_extension := by
  simp [ext_of, hd]

theorem ext_of_obj_write (k : Kernel) (h h' : Nat) (g : device_object_t → device_object_t) :
    ext_of (obj_write h g k) h' =
      if h' = h then (dev_lookup h' k.devices).map (fun d => (g d).device_extension)
      else ext_of k h' := by
  unfold ext_of
  rw [show (obj_write h g k).devices =
    k.devices.map (fun p => if p.1 = h then (p.1, g p.2) else p) from rfl, dev_lookup_map]
  split_ifs
  · cases dev_lookup h' k.devices <;> rfl
  · rfl

theorem ext_of_obj_write_flags (k : Kernel) (h h' n : Nat) :
    ext_of (obj_write h (fun o => { o with flags := n }) k) h' = ext_of k h' := by
  rw [ext_of_obj_write]
  split_ifs
  · unfold ext_of; cases dev_lookup h' k.devices <;> rfl
  · rfl

theorem ext_of_ext_write (k : Kernel) (h h' : Nat) (f : device_extension_t → device_extension_t) :
    ext_of (ext_write h f k) h' = if h' = h then (ext_of k h').map f else ext_of k h' := by
  unfold ext_write
  rw [ext_of_obj_write]
  split_ifs
  · unfold ext_of; cases dev_lookup h' k.devices <;> rfl
  · rfl

theorem pipes_obj_write (k : Kernel) (h : Nat) (f : device_object_t → device_object_t) :
    (obj_write h f k).pipes = k.pipes := rfl

theorem pipes_ext_write (k : Kernel) (h : Nat) (f : device_extension_t → device_extension_t) :
    (ext_write h f k).pipes = k.pipes := rfl

theorem pipe_size_ext_write (k : Kernel) (h : Nat) (f : device_extension_t → device_extension_t) :
    (ext_write h f k).pipe_size = k.pipe_size := rfl

theorem ext_of_delete (k : Kernel) (h x : Nat) :
    ext_of (io_delete_device x k) h = if h = x then none else ext_of k h := by
  unfold ext_of
  rw [show (io_delete_device x k).devices = dev_remove x k.devices from rfl, dev_lookup_remove]
  split_ifs <;> rfl

theorem ext_of_destroy_pipe (k : Kernel) (p : Option Nat) (h : Nat) :
    ext_of (destroy_pipe p k) h = ext_of k h := by
  cases p <;> rfl

theorem pipe_find_destroy (k : Kernel) (x id : Nat) :
    pipe_find id (destroy_pipe (some x) k).pipes = if id = x then none else pipe_find id k.pipes := by
  rw [show (destroy_pipe (some x) k).pipes = pipe_remove x k.pipes from rfl, pipe_find_remove]

theorem ext_of_lt_fresh {k : Kernel} {h : Nat} {e : device_extension_t}
    (he : ext_of k h = some e) : h < fresh_dev k.devices := by
  obtain ⟨d, hd, _⟩ := ext_of_some he
  exact dev_lookup_lt_fresh hd

theorem pipe_live_lt_fresh {k : Kernel} {id : Nat} (hl : pipe_live k id) :
    id < fresh_pipe k.pipes := by
  unfold pipe_live at hl
  cases e : pipe_find id k.pipes with
  | none => rw [e] at hl; simp at hl
  | some p => exact pipe_find_lt_fresh e

/-! ## What each handler does -/

theorem ptty_open_master_ok {k : Kernel} {m : Nat} {d : device_object_t}
    (hd : dev_lookup m k.devices = some d) (ht : d.device_extension.type = PTTY_MASTER) :
    ∃ k', ptty_open k m ⟨true, true, .IO_SUCCESS⟩ = complete k' .IO_SUCCESS none ∧
      k'.pipe_size = k.pipe_size ∧
      k'.pipes = k.pipes ++ [{ id := fresh_pipe k.pipes, fifo := [] }] ++
        [{ id := fresh_pipe (k.pipes ++ [{ id := fresh_pipe k.pipes, fifo := [] }]), fifo := [] }] ∧
      ∀ h, ext_of k' h =
        if h = fresh_dev k.devices then
          some (slave_extension d.device_extension.device_id (fresh_pipe k.pipes)
            (fresh_pipe (k.pipes ++ [{ id := fresh_pipe k.pipes, fifo := [] }])))
        else if h = m then
          some { d.device_extension with
            pipe_in := some (fresh_pipe k.pipes),
            pipe_out := some (fresh_pipe (k.pipes ++ [{ id := fresh_pipe k.pipes, fifo := [] }])),
            slave := some (fresh_dev k.devices) }
        else ext_of k h := by
  have hne : m ≠ fresh_dev k.devices := Nat.ne_of_lt (dev_lookup_lt_fresh hd)
  simp only [ptty_open, hd, ht, if_true, create_pipe, io_create_device, ne_eq,
    not_true_eq_false, if_false]
  refine ⟨_, rfl, rfl, rfl, ?_⟩
  intro h
  simp only [ext_of_ext_write, ext_of_obj_write_flags]
  simp only [ext_of, dev_lookup_append, hd]
  by_cases h1 : h = fresh_dev k.devices
  · subst h1
    have h2 : ¬ fresh_dev k.devices = m := fun c => hne c.symm
    simp [dev_lookup_fresh, h2, slave_extension, blank_extension]
  · by_cases h2 : h = m
    · subst h2
      simp [h1, hd, ht]
    · have h3 : ¬ fresh_dev k.devices = h := fun c => h1 c.symm
      simp [h1, h2, h3]
      cases dev_lookup h k.devices <;> simp

theorem kernel_pipes_eq (k : Kernel) (l : List pipe_t) (hl : l = k.pipes) :
    ({ k with pipes := l } : Kernel) = k := by
  subst hl; rfl

theorem ptty_open_master_fail {k : Kernel} {m : Nat} {d : device_object_t} (env : open_env)
    (hd : dev_lookup m k.devices = some d) (ht : d.device_extension.type = PTTY_MASTER)
    (hf : ¬ (env.pipe_in = true ∧ env.pipe_out = true ∧ env.create_dev = .IO_SUCCESS)) :
    ∃ st, st ≠ .IO_SUCCESS ∧ ptty_open k m env = complete k st none := by
  obtain ⟨pin, pout, cd⟩ := env
  have hb : pipe_remove (fresh_pipe k.pipes) (k.pipes ++ [{ id := fresh_pipe k.pipes, fifo := [] }])
      = k.pipes := pipe_remove_append_fresh _ _ _ (lt_fresh_pipe _)
  cases pin with
  | false =>
    exact ⟨.IO_FAILED, by decide, by simp [ptty_open, hd, ht, create_pipe]⟩
  | true =>
    cases pout with
    | false =>
      refine ⟨.IO_FAILED, by decide, ?_⟩
      simp only [ptty_open, hd, ht, if_true, create_pipe, destroy_pipe, Bool.false_eq_true,
        if_false, hb]
    | true =>
      cases cd with
      | IO_SUCCESS => simp at hf
      | IO_FAILED =>
        refine ⟨.IO_FAILED, by decide, ?_⟩
        have hc := pipe_remove_append_fresh
          (k.pipes ++ [{ id := fresh_pipe k.pipes, fifo := [] }])
          (fresh_pipe (k.pipes ++ [{ id := fresh_pipe k.pipes, fifo := [] }])) []
          (lt_fresh_pipe _)
        have hx : ¬ iostatus_t.IO_FAILED = iostatus_t.IO_SUCCESS := by decide
        simp only [ptty_open, hd, ht, if_true, create_pipe, io_create_device, destroy_pipe,
          ne_eq, hx, not_false_eq_true, hc, hb]

theorem ptty_open_slave {k : Kernel} {h : Nat} {d : device_object_t} (env : open_env)
    (hd : dev_lookup h k.devices = some d) (ht : d.device_extension.type ≠ PTTY_MASTER) :
    ptty_open k h env =
      complete k (if d.device_extension.locked ≠ 0 then .IO_FAILED else .IO_SUCCESS) none := by
  simp only [ptty_open, hd, ht, if_false]
  split_ifs <;> rfl

theorem ptty_close_slave {k : Kernel} {h : Nat} {d : device_object_t}
    (hd : dev_lookup h k.devices = some d) (ht : d.device_extension.type ≠ PTTY_MASTER) :
    ptty_close k h =
      complete k (if d.device_extension.locked ≠ 0 then .IO_FAILED else .IO_SUCCESS) none := by
  simp only [ptty_close, hd, ht, if_false]
  split_ifs <;> rfl

theorem ptty_close_master_none {k : Kernel} {m : Nat} {d : device_object_t}
    (hd : dev_lookup m k.devices = some d) (ht : d.device_extension.type = PTTY_MASTER)
    (hs : d.device_extension.slave = none) :
    ptty_close k m = complete k .IO_FAILED none := by
  simp only [ptty_close, hd, ht, if_true, hs]

theorem ptty_close_master_some {k : Kernel} {m s a b : Nat} {d ds : device_object_t}
    (hd : dev_lookup m k.devices = some d) (ht : d.device_extension.type = PTTY_MASTER)
    (hs : d.device_extension.slave = some s) (hds : dev_lookup s k.devices = some ds)
    (ha : d.device_extension.pipe_in = some a) (hb : d.device_extension.pipe_out = some b)
    (hne : m ≠ s) :
    ∃ k', ptty_close k m = complete k' .IO_SUCCESS none ∧
      k'.pipe_size = k.pipe_size ∧
      k'.pipes = pipe_remove b (pipe_remove a k.pipes) ∧
      ∀ h, ext_of k' h =
        if h = s then none
        else if h = m then
          some { d.device_extension with slave := none, pipe_in := none, pipe_out := none }
        else ext_of k h := by
  simp only [ptty_close, hd, ht, if_true, hs, hds, ha, hb]
  refine ⟨_, rfl, rfl, rfl, ?_⟩
  intro h
  simp only [ext_of_ext_write, ext_of_destroy_pipe, ext_of_delete]
  by_cases h1 : h = s
  · subst h1
    have h2 : ¬ h = m := fun c => hne c.symm
    simp [h2]
  · by_cases h2 : h = m
    · subst h2
      simp [h1, ext_of, hd, ht]
    · simp [h1, h2]

theorem ptty_read_effect {k k' : Kernel} {h : Nat} {len : Int} {err : Option Nat} {r : io_result}
    (hr : ptty_read k h len err = .ok (k', r)) :
    k'.devices = k.devices ∧ k'.pipe_size = k.pipe_size ∧
      ∀ id, (pipe_find id k'.pipes).isSome = (pipe_find id k.pipes).isSome := by
  unfold ptty_read at hr
  cases hd : dev_lookup h k.devices with
  | none => rw [hd] at hr; simp at hr
  | some d =>
    rw [hd] at hr
    cases hp : d.device_extension.pipe_in with
    | none => simp [hp] at hr
    | some p =>
      simp only [hp, pipe_read] at hr
      cases err with
      | some n =>
        simp only [Except.ok.injEq, Prod.mk.injEq] at hr
        obtain ⟨rfl, _⟩ := hr
        exact ⟨rfl, rfl, fun _ => rfl⟩
      | none =>
        cases hq : pipe_find p k.pipes with
        | none =>
          simp only [hq, Except.ok.injEq, Prod.mk.injEq] at hr
          obtain ⟨rfl, _⟩ := hr
          exact ⟨rfl, rfl, fun _ => rfl⟩
        | some q =>
          simp only [hq, Except.ok.injEq, Prod.mk.injEq] at hr
          obtain ⟨rfl, _⟩ := hr
          refine ⟨rfl, rfl, fun id => ?_⟩
          simp only [set_fifo, pipe_find_set]
          split_ifs <;> simp

theorem ptty_write_effect {k k' : Kernel} {h : Nat} {buf : List Nat} {len : Int}
    {err : Option Nat} {r : io_result}
    (hr : ptty_write k h buf len err = .ok (k', r)) :
    k'.devices = k.devices ∧ k'.pipe_size = k.pipe_size ∧
      ∀ id, (pipe_find id k'.pipes).isSome = (pipe_find id k.pipes).isSome := by
  unfold ptty_write at hr
  cases hd : dev_lookup h k.devices with
  | none => rw [hd] at hr; simp at hr
  | some d =>
    rw [hd] at hr
    cases hp : d.device_extension.pipe_out with
    | none => simp [hp] at hr
    | some p =>
      simp only [hp, pipe_write] at hr
      cases err with
      | some n =>
        simp only [Except.ok.injEq, Prod.mk.injEq] at hr
        obtain ⟨rfl, _⟩ := hr
        exact ⟨rfl, rfl, fun _ => rfl⟩
      | none =>
        cases hq : pipe_find p k.pipes with
        | none =>
          simp only [hq, Except.ok.injEq, Prod.mk.injEq] at hr
          obtain ⟨rfl, _⟩ := hr
          exact ⟨rfl, rfl, fun _ => rfl⟩
        | some q =>
          simp only [hq, Except.ok.injEq, Prod.mk.injEq] at hr
          obtain ⟨rfl, _⟩ := hr
          refine ⟨rfl, rfl, fun id => ?_⟩
          simp only [set_fifo, pipe_find_set]
          split_ifs <;> simp

theorem ptty_devctl_effect {k k' : Kernel} {h : Nat} {code : devctl_code} {arg : Nat}
    {r : io_result} (hr : ptty_devctl k h code arg = .ok (k', r)) :
    k' = k ∨ ∃ s v, k' = ext_write s (fun e => { e with locked := v }) k := by
  unfold ptty_devctl at hr
  cases hd : dev_lookup h k.devices with
  | none => rw [hd] at hr; simp at hr
  | some d =>
    rw [hd] at hr
    cases code with
    | TIOCGPTN =>
      cases hs : d.device_extension.slave with
      | none =>
        simp only [hs, complete, Except.ok.injEq, Prod.mk.injEq] at hr
        exact Or.inl hr.1.symm
      | some s =>
        cases hds : dev_lookup s k.devices with
        | none => simp [hs, hds] at hr
        | some ds =>
          simp only [hs, hds, complete, Except.ok.injEq, Prod.mk.injEq] at hr
          exact Or.inl hr.1.symm
    | TIOCSPTLCK =>
      cases hs : d.device_extension.slave with
      | none =>
        simp only [hs, complete, Except.ok.injEq, Prod.mk.injEq] at hr
        exact Or.inl hr.1.symm
      | some s =>
        cases hds : dev_lookup s k.devices with
        | none => simp [hs, hds] at hr
        | some ds =>
          simp only [hs, hds, complete, Except.ok.injEq, Prod.mk.injEq] at hr
          exact Or.inr ⟨s, _, hr.1.symm⟩
    | other c =>
      simp only [complete, Except.ok.injEq, Prod.mk.injEq] at hr
      exact Or.inl hr.1.symm

/-! ## The wiring invariant -/

theorem same_wiring_refl (k : Kernel) : same_wiring k k :=
  ⟨fun _ e he => ⟨e, he, rfl, rfl, rfl, rfl, rfl⟩, fun _ e he => ⟨e, he, rfl, rfl, rfl, rfl, rfl⟩,
    fun _ => Iff.rfl⟩

theorem same_wiring_lock (k : Kernel) (s : Nat) (v : Int) :
    same_wiring k (ext_write s (fun e => { e with locked := v }) k) := by
  refine ⟨fun h e he => ?_, fun h e' he' => ?_, fun _ => Iff.rfl⟩
  · rw [ext_of_ext_write, he]
    by_cases c : h = s
    · rw [if_pos c]; exact ⟨_, rfl, rfl, rfl, rfl, rfl, rfl⟩
    · rw [if_neg c]; exact ⟨_, rfl, rfl, rfl, rfl, rfl, rfl⟩
  · rw [ext_of_ext_write] at he'
    by_cases c : h = s
    · rw [if_pos c] at he'
      cases he : ext_of k h with
      | none => rw [he] at he'; simp at he'
      | some e =>
        rw [he] at he'
        simp only [Option.map_some', Option.some.injEq] at he'
        subst he'
        exact ⟨e, rfl, rfl, rfl, rfl, rfl, rfl⟩
    · rw [if_neg c] at he'
      exact ⟨e', he', rfl, rfl, rfl, rfl, rfl⟩

theorem same_wiring_of_devices {k k' : Kernel} (hd : k'.devices = k.devices)
    (hp : ∀ id, (pipe_find id k'.pipes).isSome = (pipe_find id k.pipes).isSome) :
    same_wiring k k' := by
  have he : ∀ h, ext_of k' h = ext_of k h := fun h => by unfold ext_of; rw [hd]
  refine ⟨fun h e h1 => ⟨e, by rw [he, h1], rfl, rfl, rfl, rfl, rfl⟩,
    fun h e h1 => ⟨e, by rw [← he, h1], rfl, rfl, rfl, rfl, rfl⟩, fun id => ?_⟩
  unfold pipe_live
  rw [hp]

theorem Inv_same_wiring {k k' : Kernel} (hw : same_wiring k k') (hi : Inv k) : Inv k' := by
  obtain ⟨fwd, bwd, hp⟩ := hw
  refine ⟨fun m hm => ?_, fun s es' hs hes' => ?_, fun s1 s2 e1' e2' hne h1 h2 he1 he2 => ?_⟩
  · obtain ⟨e, he, ht, hid, hnone, hsome⟩ := hi.master m hm
    obtain ⟨e', he', a1, a2, a3, a4, a5⟩ := fwd m e he
    refine ⟨e', he', by rw [a2, ht], by rw [a3, hid], fun hn => ?_, fun s hs => ?_⟩
    · rw [a4, a5]; exact hnone (by rw [← a1, hn])
    · obtain ⟨h8, es, hes, b1, b2, b3⟩ := hsome s (by rw [← a1, hs])
      obtain ⟨es', hes', c1, c2, c3, c4, c5⟩ := fwd s es hes
      exact ⟨h8, es', hes', by rw [c3, b1], by rw [c4, b2, a5], by rw [c5, b3, a4]⟩
  · obtain ⟨es, hes, c1, c2, c3, c4, c5⟩ := bwd s es' hes'
    obtain ⟨ht, hsl, a, b, ha, hb, hab, la, lb⟩ := hi.slave s es hs hes
    exact ⟨by rw [c2, ht], by rw [c1, hsl], a, b, by rw [c5, ha], by rw [c4, hb], hab,
      (hp a).2 la, (hp b).2 lb⟩
  · obtain ⟨e1, g1, _, _, _, p1, q1⟩ := bwd s1 e1' he1
    obtain ⟨e2, g2, _, _, _, p2, q2⟩ := bwd s2 e2' he2
    rw [p1, q1, p2, q2]
    exact hi.disjoint s1 s2 e1 e2 hne h1 h2 g1 g2

theorem dev_lookup_absent {h : Nat} {l : List (Nat × device_object_t)}
    (hl : ∀ p ∈ l, p.1 ≠ h) : dev_lookup h l = none := by
  induction l with
  | nil => rfl
  | cons p rest ih =>
    obtain ⟨h', d'⟩ := p
    have h1 : ¬ h' = h := hl (h', d') (List.mem_cons_self _ _)
    simp only [dev_lookup, h1, if_false]
    exact ih (fun q hq => hl q (List.mem_cons_of_mem _ hq))

theorem ext_of_start (n m : Nat) :
    ext_of (start n) m =
      if m < NR_PTM then some (master_object m).device_extension else none := by
  by_cases hm : m < NR_PTM
  · rw [if_pos hm]
    unfold NR_PTM at hm
    interval_cases m <;> rfl
  · rw [if_neg hm]
    unfold ext_of
    rw [dev_lookup_absent]
    · rfl
    · intro p hp
      simp only [start, List.mem_map, List.mem_range] at hp
      obtain ⟨i, hi, rfl⟩ := hp
      intro c
      exact hm (c ▸ hi)

theorem Inv_start (n : Nat) : Inv (start n) := by
  refine ⟨fun m hm => ?_, fun s es hs hes => ?_, fun s1 s2 e1 e2 _ h1 _ he1 _ => ?_⟩
  · refine ⟨(master_object m).device_extension, ?_, rfl, rfl, fun _ => ⟨rfl, rfl⟩, fun s hs => ?_⟩
    · rw [ext_of_start, if_pos hm]
    · simp [master_object] at hs
  · rw [ext_of_start, if_neg (by omega)] at hes
    simp at hes
  · rw [ext_of_start, if_neg (by omega)] at he1
    simp at he1

theorem Inv_handle_master {k : Kernel} (hi : Inv k) {h : Nat} {e : device_extension_t}
    (he : ext_of k h = some e) (ht : e.type = PTTY_MASTER) : h < NR_PTM := by
  by_contra c
  have := (hi.slave h e (by omega) he).1
  rw [ht] at this
  simp [PTTY_MASTER, PTTY_SLAVE] at this

theorem Inv_handle_slave {k : Kernel} (hi : Inv k) {h : Nat} {e : device_extension_t}
    (he : ext_of k h = some e) (ht : e.type ≠ PTTY_MASTER) : NR_PTM ≤ h := by
  by_contra c
  obtain ⟨e', he', ht', _⟩ := hi.master h (by omega)
  rw [he] at he'
  simp only [Option.some.injEq] at he'
  subst he'
  exact ht ht'

theorem fresh_dev_ge {k : Kernel} (hi : Inv k) : NR_PTM ≤ fresh_dev k.devices := by
  obtain ⟨e, he, _⟩ := hi.master (NR_PTM - 1) (by unfold NR_PTM; omega)
  have := ext_of_lt_fresh he
  omega

theorem pipe_live_open {k k' : Kernel} {a b : Nat}
    (hp : k'.pipes = k.pipes ++ [{ id := a, fifo := [] }] ++ [{ id := b, fifo := [] }])
    (id : Nat) : pipe_live k' id ↔ pipe_live k id ∨ id = a ∨ id = b := by
  unfold pipe_live
  rw [hp, pipe_find_append, pipe_find_append]
  cases hq : pipe_find id k.pipes with
  | some q => simp
  | none =>
    by_cases ha : a = id
    · subst ha; simp
    · by_cases hb : b = id
      · subst hb; simp [ha]
      · have ha' : ¬ id = a := fun c => ha c.symm
        have hb' : ¬ id = b := fun c => hb c.symm
        simp [ha, hb, ha', hb']

theorem fresh_pipe_lt_next (l : List pipe_t) :
    fresh_pipe l < fresh_pipe (l ++ [{ id := fresh_pipe l, fifo := [] }]) :=
  lt_fresh_pipe (l ++ [{ id := fresh_pipe l, fifo := [] }]) { id := fresh_pipe l, fifo := [] }
    (List.mem_append_right _ (List.mem_singleton_self _))

theorem Inv_open {k k' : Kernel} {m : Nat} {d : device_object_t} (hi : Inv k)
    (hd : dev_lookup m k.devices = some d) (ht : d.device_extension.type = PTTY_MASTER)
    (hp : k'.pipes = k.pipes ++ [{ id := fresh_pipe k.pipes, fifo := [] }] ++
      [{ id := fresh_pipe (k.pipes ++ [{ id := fresh_pipe k.pipes, fifo := [] }]), fifo := [] }])
    (he : ∀ h, ext_of k' h =
        if h = fresh_dev k.devices then
          some (slave_extension d.device_extension.device_id (fresh_pipe k.pipes)
            (fresh_pipe (k.pipes ++ [{ id := fresh_pipe k.pipes, fifo := [] }])))
        else if h = m then
          some { d.device_extension with
            pipe_in := some (fresh_pipe k.pipes),
            pipe_out := some (fresh_pipe (k.pipes ++ [{ id := fresh_pipe k.pipes, fifo := [] }])),
            slave := some (fresh_dev k.devices) }
        else ext_of k h) : Inv k' := by
  have hm : m < NR_PTM := Inv_handle_master hi (ext_of_lookup hd) ht
  have hs8 : NR_PTM ≤ fresh_dev k.devices := fresh_dev_ge hi
  have hab := fresh_pipe_lt_next k.pipes
  have hlive := pipe_live_open hp
  have hold : ∀ id, pipe_live k id → id < fresh_pipe k.pipes := fun id h => pipe_live_lt_fresh h
  obtain ⟨e0, he0, _, hid0, _, _⟩ := hi.master m hm
  have hde : d.device_extension = e0 := by
    have := ext_of_lookup hd
    rw [he0] at this
    exact (Option.some.inj this).symm
  generalize fresh_pipe (k.pipes ++ [{ id := fresh_pipe k.pipes, fifo := [] }]) = b at *
  generalize fresh_pipe k.pipes = a at *
  have hfresh : ext_of k (fresh_dev k.devices) = none := by
    unfold ext_of; rw [dev_lookup_fresh]; rfl
  generalize fresh_dev k.devices = s at *
  refine ⟨fun m' hm' => ?_, fun s' es' hs' hes' => ?_, fun s1 s2 e1 e2 hne h1 h2 he1 he2 => ?_⟩
  · by_cases c : m' = m
    · subst c
      refine ⟨{ d.device_extension with pipe_in := some a, pipe_out := some b, slave := some s },
        by rw [he, if_neg (by omega), if_pos rfl], ht, by rw [hde, hid0],
        fun h => by simp at h, fun s' hs' => ?_⟩
      simp only [Option.some.injEq] at hs'
      subst hs'
      refine ⟨hs8, slave_extension d.device_extension.device_id a b, by rw [he, if_pos rfl],
        ?_, rfl, rfl⟩
      simp only [slave_extension, hde, hid0]
    · obtain ⟨e, h1, h2, h3, h4, h5⟩ := hi.master m' hm'
      refine ⟨e, by rw [he, if_neg (by omega), if_neg c, h1], h2, h3, h4, fun s' hs' => ?_⟩
      obtain ⟨g1, es, g2, g3⟩ := h5 s' hs'
      have hne : s' ≠ s := fun c => by rw [c, hfresh] at g2; simp at g2
      exact ⟨g1, es, by rw [he, if_neg hne, if_neg (by omega), g2], g3⟩
  · by_cases c : s' = s
    · rw [he, if_pos c] at hes'
      simp only [Option.some.injEq] at hes'
      subst hes'
      exact ⟨rfl, rfl, a, b, rfl, rfl, by omega, (hlive a).2 (Or.inr (Or.inl rfl)),
        (hlive b).2 (Or.inr (Or.inr rfl))⟩
    · rw [he, if_neg c, if_neg (by omega)] at hes'
      obtain ⟨g1, g2, a', b', g3, g4, g5, g6, g7⟩ := hi.slave s' es' hs' hes'
      exact ⟨g1, g2, a', b', g3, g4, g5, (hlive a').2 (Or.inl g6), (hlive b').2 (Or.inl g7)⟩
  · have key : ∀ (t : Nat) (et : device_extension_t), NR_PTM ≤ t → t ≠ s →
        ext_of k' t = some et →
        et.pipe_in ≠ some a ∧ et.pipe_in ≠ some b ∧ et.pipe_out ≠ some a ∧ et.pipe_out ≠ some b ∧
        ext_of k t = some et := by
      intro t et ht8 hts het
      rw [he, if_neg hts, if_neg (by omega)] at het
      obtain ⟨_, _, a', b', g3, g4, _, g6, g7⟩ := hi.slave t et ht8 het
      have := hold a' g6
      have := hold b' g7
      rw [g3, g4]
      simp only [ne_eq, Option.some.injEq]
      exact ⟨by omega, by omega, by omega, by omega, het⟩
    by_cases c1 : s1 = s
    · have c2 : s2 ≠ s := fun c => hne (c1.trans c.symm)
      rw [he, if_pos c1] at he1
      simp only [Option.some.injEq] at he1
      subst he1
      obtain ⟨k1, k2, k3, k4, _⟩ := key s2 e2 h2 c2 he2
      exact ⟨fun c => k2 c.symm, fun c => k4 c.symm, fun c => k1 c.symm, fun c => k3 c.symm⟩
    · obtain ⟨k1, k2, k3, k4, g1⟩ := key s1 e1 h1 c1 he1
      by_cases c2 : s2 = s
      · rw [he, if_pos c2] at he2
        simp only [Option.some.injEq] at he2
        subst he2
        exact ⟨k2, k1, k4, k3⟩
      · obtain ⟨_, _, _, _, g2⟩ := key s2 e2 h2 c2 he2
        exact hi.disjoint s1 s2 e1 e2 hne h1 h2 g1 g2

/-- What the invariant says of a master that has a slave: the handles, the two
channels and the extension of the slave. -/
theorem Inv_master_slave {k : Kernel} (hi : Inv k) {m s : Nat} {e : device_extension_t}
    (he : ext_of k m = some e) (ht : e.type = PTTY_MASTER) (hs : e.slave = some s) :
    m < NR_PTM ∧ NR_PTM ≤ s ∧ e.device_id = (m : Int) ∧
    ∃ a b es, e.pipe_in = some a ∧ e.pipe_out = some b ∧ a ≠ b ∧
      pipe_live k a ∧ pipe_live k b ∧ ext_of k s = some es ∧
      es.type = PTTY_SLAVE ∧ es.slave = none ∧ es.device_id = (m : Int) ∧
      es.pipe_in = some b ∧ es.pipe_out = some a := by
  have hm := Inv_handle_master hi he ht
  obtain ⟨e', he', _, hid, _, hsome⟩ := hi.master m hm
  rw [he] at he'
  simp only [Option.some.injEq] at he'
  subst he'
  obtain ⟨h8, es, hes, g1, g2, g3⟩ := hsome s hs
  obtain ⟨t1, t2, a, b, t3, t4, t5, t6, t7⟩ := hi.slave s es h8 hes
  exact ⟨hm, h8, hid, a, b, es, by rw [← g3, t3], by rw [← g2, t4], t5, t6, t7, hes, t1, t2, g1,
    t4, t3⟩

theorem Inv_close {k k' : Kernel} {m s a b : Nat} {e es : device_extension_t} (hi : Inv k)
    (hm : m < NR_PTM) (hs8 : NR_PTM ≤ s) (hes : ext_of k s = some es)
    (hid : es.device_id = (m : Int)) (ha : es.pipe_out = some a) (hb : es.pipe_in = some b)
    (hp : k'.pipes = pipe_remove b (pipe_remove a k.pipes))
    (he : ∀ h, ext_of k' h =
        if h = s then none
        else if h = m then some { e with slave := none, pipe_in := none, pipe_out := none }
        else ext_of k h)
    (hem : ext_of k m = some e) : Inv k' := by
  have hlive : ∀ id, id ≠ a → id ≠ b → pipe_live k id → pipe_live k' id := by
    intro id h1 h2 h3
    unfold pipe_live at *
    rw [hp, pipe_find_remove, pipe_find_remove, if_neg h2, if_neg h1]
    exact h3
  refine ⟨fun m' hm' => ?_, fun s' es' hs' hes' => ?_, fun s1 s2 e1 e2 hne h1 h2 he1 he2 => ?_⟩
  · by_cases c : m' = m
    · subst c
      obtain ⟨e0, h1, h2, h3, _, _⟩ := hi.master m' hm'
      rw [hem] at h1
      simp only [Option.some.injEq] at h1
      subst h1
      exact ⟨{ e with slave := none, pipe_in := none, pipe_out := none },
        by rw [he, if_neg (by omega), if_pos rfl], h2, h3, fun _ => ⟨rfl, rfl⟩,
        fun s' hs' => by simp at hs'⟩
    · obtain ⟨e1, h1, h2, h3, h4, h5⟩ := hi.master m' hm'
      refine ⟨e1, by rw [he, if_neg (by omega), if_neg c, h1], h2, h3, h4, fun s' hs' => ?_⟩
      obtain ⟨g1, es', g2, g3, g4⟩ := h5 s' hs'
      have hne : s' ≠ s := by
        intro c2
        rw [c2, hes] at g2
        simp only [Option.some.injEq] at g2
        subst g2
        rw [hid] at g3
        omega
      exact ⟨g1, es', by rw [he, if_neg hne, if_neg (by omega), g2], g3, g4⟩
  · have c : s' ≠ s := fun c => by rw [he, if_pos c] at hes'; simp at hes'
    rw [he, if_neg c, if_neg (by omega)] at hes'
    obtain ⟨g1, g2, a', b', g3, g4, g5, g6, g7⟩ := hi.slave s' es' hs' hes'
    obtain ⟨d1, d2, d3, d4⟩ := hi.disjoint s' s es' es c hs' hs8 hes' hes
    simp only [g3, g4, ha, hb, ne_eq, Option.some.injEq] at d1 d2 d3 d4
    exact ⟨g1, g2, a', b', g3, g4, g5, hlive a' d4 d3 g6, hlive b' d2 d1 g7⟩
  · have c1 : s1 ≠ s := fun c => by rw [he, if_pos c] at he1; simp at he1
    have c2 : s2 ≠ s := fun c => by rw [he, if_pos c] at he2; simp at he2
    rw [he, if_neg c1, if_neg (by omega)] at he1
    rw [he, if_neg c2, if_neg (by omega)] at he2
    exact hi.disjoint s1 s2 e1 e2 hne h1 h2 he1 he2

/-- Every served request keeps the wiring invariant. -/
theorem Inv_step {k k' : Kernel} {r : io_result} {device : Nat} {req : io_request_t}
    (hi : Inv k) (hs : dispatch k device req = .ok (k', r)) : Inv k' := by
  cases req with
  | IOREQ_OPEN env =>
    simp only [dispatch] at hs
    cases hd : dev_lookup device k.devices with
    | none => simp [ptty_open, hd] at hs
    | some d =>
      by_cases ht : d.device_extension.type = PTTY_MASTER
      · by_cases hok : env.pipe_in = true ∧ env.pipe_out = true ∧ env.create_dev = .IO_SUCCESS
        · obtain ⟨pin, pout, cd⟩ := env
          obtain ⟨rfl, rfl, rfl⟩ := hok
          obtain ⟨k2, h1, _, h3, h4⟩ := ptty_open_master_ok hd ht
          rw [h1, complete] at hs
          simp only [Except.ok.injEq, Prod.mk.injEq] at hs
          obtain ⟨rfl, _⟩ := hs
          exact Inv_open hi hd ht h3 h4
        · obtain ⟨st, _, h1⟩ := ptty_open_master_fail env hd ht hok
          rw [h1, complete] at hs
          simp only [Except.ok.injEq, Prod.mk.injEq] at hs
          obtain ⟨rfl, _⟩ := hs
          exact hi
      · rw [ptty_open_slave env hd ht, complete] at hs
        simp only [Except.ok.injEq, Prod.mk.injEq] at hs
        obtain ⟨rfl, _⟩ := hs
        exact hi
  | IOREQ_CLOSE =>
    simp only [dispatch] at hs
    cases hd : dev_lookup device k.devices with
    | none => simp [ptty_close, hd] at hs
    | some d =>
      by_cases ht : d.device_extension.type = PTTY_MASTER
      · cases hsl : d.device_extension.slave with
        | none =>
          rw [ptty_close_master_none hd ht hsl, complete] at hs
          simp only [Except.ok.injEq, Prod.mk.injEq] at hs
          obtain ⟨rfl, _⟩ := hs
          exact hi
        | some s =>
          obtain ⟨hm, h8, _, a, b, es, g1, g2, _, _, _, g6, _, _, g9, g10, g11⟩ :=
            Inv_master_slave hi (ext_of_lookup hd) ht hsl
          obtain ⟨ds, hds, hdse⟩ := ext_of_some g6
          obtain ⟨k2, h1, _, h3, h4⟩ :=
            ptty_close_master_some hd ht hsl hds g1 g2 (by omega)
          rw [h1, complete] at hs
          simp only [Except.ok.injEq, Prod.mk.injEq] at hs
          obtain ⟨rfl, _⟩ := hs
          exact Inv_close hi hm h8 g6 g9 g11 g10 h3 h4 (ext_of_lookup hd)
      · rw [ptty_close_slave hd ht, complete] at hs
        simp only [Except.ok.injEq, Prod.mk.injEq] at hs
        obtain ⟨rfl, _⟩ := hs
        exact hi
  | IOREQ_READ length err =>
    obtain ⟨h1, _, h3⟩ := ptty_read_effect hs
    exact Inv_same_wiring (same_wiring_of_devices h1 h3) hi
  | IOREQ_WRITE buf length err =>
    obtain ⟨h1, _, h3⟩ := ptty_write_effect hs
    exact Inv_same_wiring (same_wiring_of_devices h1 h3) hi
  | IOREQ_DEVCTL code arg =>
    rcases ptty_devctl_effect hs with h | ⟨s, v, h⟩
    · rw [h]; exact hi
    · rw [h]; exact Inv_same_wiring (same_wiring_lock k s v) hi

/-- The wiring invariant holds in every reachable state. -/
theorem Reachable_Inv {k : Kernel} (hk : Reachable k) : Inv k := by
  induction hk with
  | start n => exact Inv_start n
  | step device req _ hs ih => exact Inv_step ih hs

/-! ## The control operation -/

theorem ptty_devctl_gptn {k : Kernel} {m s : Nat} {e es : device_extension_t} (arg : Nat)
    (he : ext_of k m = some e) (hs : e.slave = some s) (hes : ext_of k s = some es) :
    ptty_devctl k m .TIOCGPTN arg =
      complete k .IO_SUCCESS (some (int_to_ulong es.device_id)) := by
  obtain ⟨d, hd, rfl⟩ := ext_of_some he
  obtain ⟨ds, hds, rfl⟩ := ext_of_some hes
  simp only [ptty_devctl, hd, hs, hds]

theorem ptty_devctl_lock {k : Kernel} {m s : Nat} {e es : device_extension_t} (arg : Nat)
    (he : ext_of k m = some e) (hs : e.slave = some s) (hes : ext_of k s = some es) :
    ptty_devctl k m .TIOCSPTLCK arg =
      complete (ext_write s (fun x => { x with locked := ulong_to_int arg }) k)
        .IO_SUCCESS none := by
  obtain ⟨d, hd, rfl⟩ := ext_of_some he
  obtain ⟨ds, hds, rfl⟩ := ext_of_some hes
  simp only [ptty_devctl, hd, hs, hds]

theorem ptty_devctl_gptn_none {k : Kernel} {m : Nat} {e : device_extension_t} (arg : Nat)
    (he : ext_of k m = some e) (hs : e.slave = none) :
    ptty_devctl k m .TIOCGPTN arg = complete k .IO_FAILED none := by
  obtain ⟨d, hd, rfl⟩ := ext_of_some he
  simp only [ptty_devctl, hd, hs]

theorem ptty_devctl_lock_none {k : Kernel} {m : Nat} {e : device_extension_t} (arg : Nat)
    (he : ext_of k m = some e) (hs : e.slave = none) :
    ptty_devctl k m .TIOCSPTLCK arg = complete k .IO_FAILED none := by
  obtain ⟨d, hd, rfl⟩ := ext_of_some he
  simp only [ptty_devctl, hd, hs]

theorem int_to_ulong_nat {n : Nat} (hn : n < 2 ^ 32) : int_to_ulong (n : Int) = n := by
  unfold int_to_ulong
  have h : ((n : Int) % 2 ^ 32) = (n : Int) := Int.emod_eq_of_lt (by omega) (by omega)
  rw [h]
  simp

theorem ulong_to_int_ne_zero {v : Nat} (hv : v < 2 ^ 32) : ulong_to_int v ≠ 0 ↔ v ≠ 0 := by
  unfold ulong_to_int
  have h : v % 2 ^ 32 = v := Nat.mod_eq_of_lt hv
  rw [h]
  split_ifs <;> omega

theorem opened_eq :
    ptty_open (start 16) 0 all_ok =
      .ok (opened, { ret := .IO_SUCCESS, status := .IO_SUCCESS, infomation := 0,
                     user_buffer := [], arg := none }) := rfl

theorem Reachable_opened : Reachable opened :=
  Reachable.step 0 (.IOREQ_OPEN all_ok) (Reachable.start 16) opened_eq

/-! ## Master open -/

/-- C1: in every reachable state, opening master `m` (`m < 8`, itself a master whose
`device_id` is `m`) when both channel creations and the slave registration succeed
returns success with 0 transferred bytes and leaves master `m` owning a slave whose
`device_id` is `m`, whose type is slave and whose `locked` is 1; a following
`TIOCGPTN` on master `m` succeeds, changes nothing and stores `m` through the
argument. -/
theorem ptty_open_master_creates_locked_slave (k : Kernel) (hk : Reachable k) (m : Nat)
    (hm : m < NR_PTM) (env : open_env) (h1 : env.pipe_in = true) (h2 : env.pipe_out = true)
    (h3 : env.create_dev = .IO_SUCCESS) (arg : Nat) :
    (∃ e, ext_of k m = some e ∧ e.type = PTTY_MASTER ∧ e.device_id = (m : Int)) ∧
    ∃ k' r e' s es, ptty_open k m env = .ok (k', r) ∧
      r.ret = .IO_SUCCESS ∧ r.status = .IO_SUCCESS ∧ r.infomation = 0 ∧
      ext_of k' m = some e' ∧ e'.slave = some s ∧
      ext_of k' s = some es ∧ es.device_id = (m : Int) ∧ es.type = PTTY_SLAVE ∧
      es.locked = 1 ∧ es.locked ≠ 0 ∧
      ∃ r', ptty_devctl k' m .TIOCGPTN arg = .ok (k', r') ∧
        r'.ret = .IO_SUCCESS ∧ r'.status = .IO_SUCCESS ∧ r'.infomation = 0 ∧
        r'.arg = some m := by
  have hi := Reachable_Inv hk
  obtain ⟨e, he, ht, hid, _, _⟩ := hi.master m hm
  obtain ⟨d, hd, rfl⟩ := ext_of_some he
  obtain ⟨pin, pout, cd⟩ := env
  simp only at h1 h2 h3
  subst h1 h2 h3
  obtain ⟨k', ho, _, _, hext⟩ := ptty_open_master_ok hd ht
  have hne : m ≠ fresh_dev k.devices := Nat.ne_of_lt (dev_lookup_lt_fresh hd)
  have hm' := hext m
  rw [if_neg hne, if_pos rfl] at hm'
  have hs' := hext (fresh_dev k.devices)
  rw [if_pos rfl] at hs'
  refine ⟨⟨_, he, ht, hid⟩, k', _, _, fresh_dev k.devices, _, ho, rfl, rfl, rfl, hm', rfl, hs',
    hid, rfl, rfl, by simp [slave_extension], ?_⟩
  refine ⟨_, ptty_devctl_gptn arg hm' rfl hs', rfl, rfl, rfl, ?_⟩
  simp only [slave_extension, hid]
  rw [int_to_ulong_nat (by unfold NR_PTM at hm; omega)]

/-- Witness of C1: master 3 in the start state. -/
theorem ptty_open_master_creates_locked_slave_witness :
    (∃ e, ext_of (start 16) 3 = some e ∧ e.type = PTTY_MASTER ∧ e.device_id = ((3 : Nat) : Int)) ∧
    ∃ k' r e' s es, ptty_open (start 16) 3 all_ok = .ok (k', r) ∧
      r.ret = .IO_SUCCESS ∧ r.status = .IO_SUCCESS ∧ r.infomation = 0 ∧
      ext_of k' 3 = some e' ∧ e'.slave = some s ∧
      ext_of k' s = some es ∧ es.device_id = ((3 : Nat) : Int) ∧ es.type = PTTY_SLAVE ∧
      es.locked = 1 ∧ es.locked ≠ 0 ∧
      ∃ r', ptty_devctl k' 3 .TIOCGPTN 0 = .ok (k', r') ∧
        r'.ret = .IO_SUCCESS ∧ r'.status = .IO_SUCCESS ∧ r'.infomation = 0 ∧
        r'.arg = some 3 :=
  ptty_open_master_creates_locked_slave (start 16) (Reachable.start 16) 3 (by decide) all_ok
    rfl rfl rfl 0

/-- C2: the crossover invariant.  In every reachable state, a master with a slave has
that slave registered with `slave.pipe_in = master.pipe_out` and
`slave.pipe_out = master.pipe_in`, both channels being present; and a master open in
which every allocation succeeds, `c1` being the first channel created and `c2` the
second, leaves `master.pipe_in = c1`, `master.pipe_out = c2`, `slave.pipe_in = c2`,
`slave.pipe_out = c1`. -/
theorem crossover_invariant (k : Kernel) (hk : Reachable k) :
    (∀ m e s, ext_of k m = some e → e.type = PTTY_MASTER → e.slave = some s →
      ∃ es a b, ext_of k s = some es ∧ es.pipe_in = e.pipe_out ∧ es.pipe_out = e.pipe_in ∧
        e.pipe_in = some a ∧ e.pipe_out = some b) ∧
    (∀ m e, ext_of k m = some e → e.type = PTTY_MASTER →
      ∃ c1 k1 c2 k2 k' r e' s es,
        create_pipe true k = (some c1, k1) ∧ create_pipe true k1 = (some c2, k2) ∧ c1 ≠ c2 ∧
        ptty_open k m all_ok = .ok (k', r) ∧ r.ret = .IO_SUCCESS ∧
        ext_of k' m = some e' ∧ e'.slave = some s ∧ ext_of k' s = some es ∧
        e'.pipe_in = some c1 ∧ e'.pipe_out = some c2 ∧
        es.pipe_in = some c2 ∧ es.pipe_out = some c1) := by
  have hi := Reachable_Inv hk
  refine ⟨fun m e s he ht hs => ?_, fun m e he ht => ?_⟩
  · obtain ⟨_, _, _, a, b, es, g1, g2, _, _, _, g6, _, _, _, g10, g11⟩ :=
      Inv_master_slave hi he ht hs
    exact ⟨es, a, b, g6, by rw [g10, g2], by rw [g11, g1], g1, g2⟩
  · obtain ⟨d, hd, rfl⟩ := ext_of_some he
    obtain ⟨k', ho, _, _, hext⟩ := ptty_open_master_ok hd ht
    have hne : m ≠ fresh_dev k.devices := Nat.ne_of_lt (dev_lookup_lt_fresh hd)
    have hm' := hext m
    rw [if_neg hne, if_pos rfl] at hm'
    have hs' := hext (fresh_dev k.devices)
    rw [if_pos rfl] at hs'
    exact ⟨_, _, _, _, k', _, _, _, _, rfl, rfl, Nat.ne_of_lt (fresh_pipe_lt_next k.pipes), ho, rfl,
      hm', rfl, hs', rfl, rfl, rfl, rfl⟩

/-- Witness of C2: the state in which master 0 was opened; its slave is device 8 and
the channels are 0 and 1. -/
theorem crossover_invariant_witness :
    (∀ m e s, ext_of opened m = some e → e.type = PTTY_MASTER → e.slave = some s →
      ∃ es a b, ext_of opened s = some es ∧ es.pipe_in = e.pipe_out ∧
        es.pipe_out = e.pipe_in ∧ e.pipe_in = some a ∧ e.pipe_out = some b) ∧
    (∀ m e, ext_of opened m = some e → e.type = PTTY_MASTER →
      ∃ c1 k1 c2 k2 k' r e' s es,
        create_pipe true opened = (some c1, k1) ∧ create_pipe true k1 = (some c2, k2) ∧
        c1 ≠ c2 ∧
        ptty_open opened m all_ok = .ok (k', r) ∧ r.ret = .IO_SUCCESS ∧
        ext_of k' m = some e' ∧ e'.slave = some s ∧ ext_of k' s = some es ∧
        e'.pipe_in = some c1 ∧ e'.pipe_out = some c2 ∧
        es.pipe_in = some c2 ∧ es.pipe_out = some c1) :=
  crossover_invariant opened Reachable_opened

/-! ## Slave open and the lock -/

/-- C3: opening a slave whose `locked` flag is set fails with 0 transferred bytes, and
the state after the call is the state before it. -/
theorem ptty_open_locked_slave_denied (k : Kernel) (h : Nat) (e : device_extension_t)
    (env : open_env) (he : ext_of k h = some e) (ht : e.type = PTTY_SLAVE)
    (hl : e.locked ≠ 0) :
    ptty_open k h env =
      .ok (k, { ret := .IO_FAILED, status := .IO_FAILED, infomation := 0,
                user_buffer := [], arg := none }) := by
  obtain ⟨d, hd, rfl⟩ := ext_of_some he
  have ht' : d.device_extension.type ≠ PTTY_MASTER := by
    rw [ht]; decide
  rw [ptty_open_slave env hd ht', if_pos hl]
  rfl

/-- Witness of C3: slave 8 of the state in which master 0 was opened is locked. -/
theorem ptty_open_locked_slave_denied_witness :
    ptty_open opened 8 all_ok =
      .ok (opened, { ret := .IO_FAILED, status := .IO_FAILED, infomation := 0,
                     user_buffer := [], arg := none }) :=
  ptty_open_locked_slave_denied opened 8 (slave_extension 0 0 1) all_ok rfl rfl (by decide)

/-- C4: in every reachable state, `TIOCSPTLCK` with argument `v` (an `unsigned long`,
so `v < 2^32`) on a master that has a slave succeeds with 0 transferred bytes, stores
nothing through the argument, and leaves the slave with `locked = (int) v`, which is
non-zero iff `v ≠ 0`; a following open of that slave changes nothing and succeeds iff
`v = 0`. -/
theorem ptty_devctl_set_lock (k : Kernel) (hk : Reachable k) (m s : Nat)
    (e : device_extension_t) (v : Nat) (hv : v < 2 ^ 32) (env : open_env)
    (he : ext_of k m = some e) (ht : e.type = PTTY_MASTER) (hs : e.slave = some s) :
    ∃ k1 r es1, ptty_devctl k m .TIOCSPTLCK v = .ok (k1, r) ∧
      r.ret = .IO_SUCCESS ∧ r.status = .IO_SUCCESS ∧ r.infomation = 0 ∧ r.arg = none ∧
      ext_of k1 s = some es1 ∧ es1.type = PTTY_SLAVE ∧ es1.locked = ulong_to_int v ∧
      (es1.locked ≠ 0 ↔ v ≠ 0) ∧
      ∃ r2, ptty_open k1 s env = .ok (k1, r2) ∧ r2.status = r2.ret ∧ r2.infomation = 0 ∧
        (r2.ret = .IO_SUCCESS ↔ v = 0) ∧ (v = 0 → r2.ret = .IO_SUCCESS) := by
  have hi := Reachable_Inv hk
  obtain ⟨_, _, _, a, b, es, _, _, _, _, _, g6, g7, _, _, _, _⟩ := Inv_master_slave hi he ht hs
  have hes1 : ext_of (ext_write s (fun x => { x with locked := ulong_to_int v }) k) s =
      some { es with locked := ulong_to_int v } := by
    rw [ext_of_ext_write, if_pos rfl, g6]; rfl
  obtain ⟨d1, hd1, hd1e⟩ := ext_of_some hes1
  have ht1 : d1.device_extension.type ≠ PTTY_MASTER := by
    rw [hd1e]; simp only [g7]; decide
  have hlk := ulong_to_int_ne_zero hv
  refine ⟨_, _, _, ptty_devctl_lock v he hs g6, rfl, rfl, rfl, rfl, hes1, g7, rfl, hlk, ?_⟩
  rw [ptty_open_slave env hd1 ht1, hd1e]
  simp only [complete]
  by_cases c : v = 0
  · have hz : ¬ ulong_to_int v ≠ 0 := fun x => (hlk.1 x) c
    rw [if_neg hz]
    exact ⟨_, rfl, rfl, rfl, ⟨fun _ => c, fun _ => rfl⟩, fun _ => rfl⟩
  · have hz : ulong_to_int v ≠ 0 := hlk.2 c
    rw [if_pos hz]
    exact ⟨_, rfl, rfl, rfl, ⟨fun x => by simp at x, fun x => absurd x c⟩, fun x => absurd x c⟩

/-- Witness of C4: unlocking slave 8 through master 0. -/
theorem ptty_devctl_set_lock_witness :
    ∃ k1 r es1, ptty_devctl opened 0 .TIOCSPTLCK 0 = .ok (k1, r) ∧
      r.ret = .IO_SUCCESS ∧ r.status = .IO_SUCCESS ∧ r.infomation = 0 ∧ r.arg = none ∧
      ext_of k1 8 = some es1 ∧ es1.type = PTTY_SLAVE ∧ es1.locked = ulong_to_int 0 ∧
      (es1.locked ≠ 0 ↔ 0 ≠ 0) ∧
      ∃ r2, ptty_open k1 8 all_ok = .ok (k1, r2) ∧ r2.status = r2.ret ∧ r2.infomation = 0 ∧
        (r2.ret = .IO_SUCCESS ↔ 0 = 0) ∧ (0 = 0 → r2.ret = .IO_SUCCESS) :=
  ptty_devctl_set_lock opened Reachable_opened 0 8
    { locked := 0, slave := some 8, type := PTTY_MASTER, device_id := 0,
      pipe_in := some 0, pipe_out := some 1 } 0 (by decide) all_ok rfl rfl rfl

/-! ## Master close -/

/-- C5: in every reachable state, closing a master that has a slave succeeds with 0
transferred bytes, unregisters the slave (and no other device), destroys the two
channels the master referenced (both live before, and no other pipe is touched) and
leaves the master with `slave`, `pipe_in` and `pipe_out` empty; a following `TIOCGPTN`
on the master fails, stores nothing through the argument and changes nothing. -/
theorem ptty_close_master_releases (k : Kernel) (hk : Reachable k) (m s : Nat)
    (e : device_extension_t) (arg : Nat)
    (he : ext_of k m = some e) (ht : e.type = PTTY_MASTER) (hs : e.slave = some s) :
    ∃ a b k' r e', e.pipe_in = some a ∧ e.pipe_out = some b ∧
      pipe_live k a ∧ pipe_live k b ∧ (ext_of k s).isSome = true ∧
      ptty_close k m = .ok (k', r) ∧
      r.ret = .IO_SUCCESS ∧ r.status = .IO_SUCCESS ∧ r.infomation = 0 ∧
      ext_of k' s = none ∧ (∀ h, h ≠ s → h ≠ m → ext_of k' h = ext_of k h) ∧
      (∀ id, pipe_find id k'.pipes = if id = a ∨ id = b then none else pipe_find id k.pipes) ∧
      ext_of k' m = some e' ∧ e'.slave = none ∧ e'.pipe_in = none ∧ e'.pipe_out = none ∧
      ∃ r', ptty_devctl k' m .TIOCGPTN arg = .ok (k', r') ∧
        r'.ret = .IO_FAILED ∧ r'.status = .IO_FAILED ∧ r'.infomation = 0 ∧ r'.arg = none := by
  have hi := Reachable_Inv hk
  obtain ⟨hm, h8, _, a, b, es, g1, g2, _, g4, g5, g6, _, _, _, _, _⟩ :=
    Inv_master_slave hi he ht hs
  obtain ⟨d, hd, rfl⟩ := ext_of_some he
  obtain ⟨ds, hds, _⟩ := ext_of_some g6
  have hne : m ≠ s := by omega
  obtain ⟨k', hc, _, hp, hext⟩ := ptty_close_master_some hd ht hs hds g1 g2 hne
  have hm' := hext m
  rw [if_neg hne, if_pos rfl] at hm'
  refine ⟨a, b, k', _, _, g1, g2, g4, g5, by rw [g6]; rfl, hc, rfl, rfl, rfl, ?_, ?_, ?_, hm', rfl,
    rfl, rfl, _, ptty_devctl_gptn_none arg hm' rfl, rfl, rfl, rfl, rfl⟩
  · rw [hext, if_pos rfl]
  · intro h h1 h2
    rw [hext, if_neg h1, if_neg h2]
  · intro id
    rw [hp, pipe_find_remove, pipe_find_remove]
    by_cases c1 : id = a
    · simp [c1]
    · by_cases c2 : id = b
      · simp [c2]
      · simp [c1, c2]

/-- Witness of C5: closing master 0 after it was opened. -/
theorem ptty_close_master_releases_witness :
    ∃ a b k' r e', (some 0 : Option Nat) = some a ∧ (some 1 : Option Nat) = some b ∧
      pipe_live opened a ∧ pipe_live opened b ∧ (ext_of opened 8).isSome = true ∧
      ptty_close opened 0 = .ok (k', r) ∧
      r.ret = .IO_SUCCESS ∧ r.status = .IO_SUCCESS ∧ r.infomation = 0 ∧
      ext_of k' 8 = none ∧ (∀ h, h ≠ 8 → h ≠ 0 → ext_of k' h = ext_of opened h) ∧
      (∀ id, pipe_find id k'.pipes =
        if id = a ∨ id = b then none else pipe_find id opened.pipes) ∧
      ext_of k' 0 = some e' ∧ e'.slave = none ∧ e'.pipe_in = none ∧ e'.pipe_out = none ∧
      ∃ r', ptty_devctl k' 0 .TIOCGPTN 7 = .ok (k', r') ∧
        r'.ret = .IO_FAILED ∧ r'.status = .IO_FAILED ∧ r'.infomation = 0 ∧ r'.arg = none :=
  ptty_close_master_releases opened Reachable_opened 0 8
    { locked := 0, slave := some 8, type := PTTY_MASTER, device_id := 0,
      pipe_in := some 0, pipe_out := some 1 } 7 rfl rfl rfl

/-! ## Failure of a master open -/

/-- C6: a master open in which an allocation fails (the first channel, the second
channel, or the slave registration after both channels) returns a failure status with
0 transferred bytes, and the state after the call is the state before it: the live
pipes are those live before, no device was registered, and the master's `slave`,
`pipe_in` and `pipe_out` are unchanged. -/
theorem ptty_open_master_atomic (k : Kernel) (m : Nat) (e : device_extension_t)
    (env : open_env) (he : ext_of k m = some e) (ht : e.type = PTTY_MASTER)
    (hf : env.pipe_in = false ∨ env.pipe_out = false ∨ env.create_dev ≠ .IO_SUCCESS) :
    ∃ st, st ≠ .IO_SUCCESS ∧
      ptty_open k m env =
        .ok (k, { ret := st, status := st, infomation := 0, user_buffer := [], arg := none }) := by
  obtain ⟨d, hd, rfl⟩ := ext_of_some he
  have hf' : ¬ (env.pipe_in = true ∧ env.pipe_out = true ∧ env.create_dev = .IO_SUCCESS) := by
    rintro ⟨c1, c2, c3⟩
    rcases hf with h | h | h
    · rw [c1] at h; simp at h
    · rw [c2] at h; simp at h
    · exact h c3
  obtain ⟨st, h1, h2⟩ := ptty_open_master_fail env hd ht hf'
  exact ⟨st, h1, h2⟩

/-- Witness of C6: on master 0 that already has a slave, the slave registration fails
after both channels were created. -/
theorem ptty_open_master_atomic_witness :
    ∃ st, st ≠ .IO_SUCCESS ∧
      ptty_open opened 0 { pipe_in := true, pipe_out := true, create_dev := .IO_FAILED } =
        .ok (opened,
          { ret := st, status := st, infomation := 0, user_buffer := [], arg := none }) :=
  ptty_open_master_atomic opened 0
    { locked := 0, slave := some 8, type := PTTY_MASTER, device_id := 0,
      pipe_in := some 0, pipe_out := some 1 }
    { pipe_in := true, pipe_out := true, create_dev := .IO_FAILED } rfl rfl
    (Or.inr (Or.inr (by decide)))

/-! ## Read and write -/

theorem ptty_read_eq {k : Kernel} {h p : Nat} {e : device_extension_t} (len : Int)
    (err : Option Nat) (he : ext_of k h = some e) (hp : e.pipe_in = some p) :
    ptty_read k h len err =
      .ok ((pipe_read err p len k).2.2,
        { ret := if (pipe_read err p len k).1 < 0 then .IO_FAILED else .IO_SUCCESS,
          status := if (pipe_read err p len k).1 < 0 then .IO_FAILED else .IO_SUCCESS,
          infomation := (pipe_read err p len k).1,
          user_buffer := (pipe_read err p len k).2.1, arg := none }) := by
  obtain ⟨d, hd, rfl⟩ := ext_of_some he
  simp only [ptty_read, hd, hp]

theorem ptty_write_eq {k : Kernel} {h p : Nat} {e : device_extension_t} (buf : List Nat)
    (len : Int) (err : Option Nat) (he : ext_of k h = some e) (hp : e.pipe_out = some p) :
    ptty_write k h buf len err =
      .ok ((pipe_write err p buf len k).2,
        { ret := .IO_SUCCESS, status := .IO_SUCCESS,
          infomation := (pipe_write err p buf len k).1, user_buffer := [], arg := none }) := by
  obtain ⟨d, hd, rfl⟩ := ext_of_some he
  simp only [ptty_write, hd, hp, ite_self]

/-- C7, as the code has it: when the channel read returns a negative result,
`ptty_read` reports a failure status and `io_status.infomation` receives that
negative result (not zero); nothing is delivered through the state other than what
the channel read itself did. -/
theorem ptty_read_negative (k : Kernel) (h p : Nat) (e : device_extension_t) (len : Int)
    (err : Option Nat) (he : ext_of k h = some e) (hp : e.pipe_in = some p)
    (hn : (pipe_read err p len k).1 < 0) :
    ∃ k' r, ptty_read k h len err = .ok (k', r) ∧
      r.ret = .IO_FAILED ∧ r.status = .IO_FAILED ∧
      r.infomation = (pipe_read err p len k).1 ∧ r.infomation < 0 ∧ r.infomation ≠ 0 := by
  refine ⟨_, _, ptty_read_eq len err he hp, ?_, ?_, rfl, hn, ?_⟩
  · simp only [hn, if_true]
  · simp only [hn, if_true]
  · exact Int.ne_of_lt hn

/-- Witness of C7 as amended: a read on master 0 whose channel read fails with `-1`. -/
theorem ptty_read_negative_witness :
    ∃ k' r, ptty_read opened 0 5 (some 0) = .ok (k', r) ∧
      r.ret = .IO_FAILED ∧ r.status = .IO_FAILED ∧
      r.infomation = (pipe_read (some 0) 0 5 opened).1 ∧ r.infomation < 0 ∧ r.infomation ≠ 0 :=
  ptty_read_negative opened 0 0
    { locked := 0, slave := some 8, type := PTTY_MASTER, device_id := 0,
      pipe_in := some 0, pipe_out := some 1 } 5 (some 0) rfl rfl (by decide)

/-- C7, as stated, fails: master 0 of `opened` has inbound channel 0, the channel read
returns `-1`, and `ptty_read` completes the request with a failure status and `-1`,
not `0`, in `io_status.infomation`. -/
theorem ptty_read_negative_not_zero_bytes :
    (∃ e, ext_of opened 0 = some e ∧ e.pipe_in = some 0) ∧
    (pipe_read (some 0) 0 5 opened).1 = -1 ∧
    ptty_read opened 0 5 (some 0) =
      .ok (opened, { ret := .IO_FAILED, status := .IO_FAILED, infomation := -1,
                     user_buffer := [], arg := none }) ∧
    ¬ (∀ k' r, ptty_read opened 0 5 (some 0) = .ok (k', r) →
        r.status = .IO_FAILED ∧ r.infomation = 0) := by
  refine ⟨⟨_, rfl, rfl⟩, rfl, rfl, fun h => ?_⟩
  have h2 := (h opened _ rfl).2
  exact absurd h2 (by decide)

/-- C8, on the failing input: a write on master 0 of `opened` whose channel write
returns `-1` completes with `IO_SUCCESS` both as return value and as
`io_status.status`, with `-1` in `io_status.infomation`. -/
theorem ptty_write_negative_reports_success :
    (∃ e, ext_of opened 0 = some e ∧ e.pipe_out = some 1) ∧
    (pipe_write (some 0) 1 hello 5 opened).1 = -1 ∧
    ptty_write opened 0 hello 5 (some 0) =
      .ok (opened, { ret := .IO_SUCCESS, status := .IO_SUCCESS, infomation := -1,
                     user_buffer := [], arg := none }) :=
  ⟨⟨_, rfl, rfl⟩, rfl, rfl⟩

/-! ## The crossover round trip -/

theorem pipe_live_find {k : Kernel} {id : Nat} (hl : pipe_live k id) :
    ∃ q, pipe_find id k.pipes = some q := by
  unfold pipe_live at hl
  cases e : pipe_find id k.pipes with
  | none => rw [e] at hl; simp at hl
  | some q => exact ⟨q, rfl⟩

theorem pipe_write_ok {k : Kernel} {p : Nat} {q : pipe_t} (buf : List Nat) (len : Int)
    (hq : pipe_find p k.pipes = some q) :
    pipe_write none p buf len k =
      ((((buf.take (min len.toNat (k.pipe_size - q.fifo.length))).length : Nat) : Int),
        set_fifo p (q.fifo ++ buf.take (min len.toNat (k.pipe_size - q.fifo.length))) k) := by
  simp only [pipe_write, hq]

theorem pipe_read_ok {k : Kernel} {p : Nat} {q : pipe_t} (len : Int)
    (hq : pipe_find p k.pipes = some q) :
    pipe_read none p len k =
      ((((q.fifo.take len.toNat).length : Nat) : Int), q.fifo.take len.toNat,
        set_fifo p (q.fifo.drop len.toNat) k) := by
  simp only [pipe_read, hq]

theorem pipe_find_set_fifo (k : Kernel) (id x : Nat) (fifo : List Nat) :
    pipe_find id (set_fifo x fifo k).pipes =
      if id = x then (pipe_find id k.pipes).map (fun p => { p with fifo := fifo })
      else pipe_find id k.pipes :=
  pipe_find_set id x fifo k.pipes

theorem ext_of_set_fifo (k : Kernel) (h x : Nat) (fifo : List Nat) :
    ext_of (set_fifo x fifo k) h = ext_of k h := rfl

/-- A write of `bytes` on an endpoint whose outbound channel `p` is empty, followed by
a read of the same length on an endpoint whose inbound channel is `p`, delivers
`bytes`. -/
theorem write_then_read {k : Kernel} {w r p : Nat} {ew er : device_extension_t}
    (bytes : List Nat) (hw : ext_of k w = some ew) (hwp : ew.pipe_out = some p)
    (hr : ext_of k r = some er) (hrp : er.pipe_in = some p)
    (hempty : fifo_of k p = some []) (hfit : bytes.length ≤ k.pipe_size) :
    ∃ k1 r1 k2 r2, ptty_write k w bytes (bytes.length : Int) none = .ok (k1, r1) ∧
      r1.ret = .IO_SUCCESS ∧ r1.status = .IO_SUCCESS ∧ r1.infomation = (bytes.length : Int) ∧
      ptty_read k1 r (bytes.length : Int) none = .ok (k2, r2) ∧
      r2.ret = .IO_SUCCESS ∧ r2.status = .IO_SUCCESS ∧ r2.infomation = (bytes.length : Int) ∧
      r2.user_buffer = bytes := by
  unfold fifo_of at hempty
  cases hq : pipe_find p k.pipes with
  | none => rw [hq] at hempty; simp at hempty
  | some q =>
    rw [hq] at hempty
    simp only [Option.map_some', Option.some.injEq] at hempty
    have hdata : bytes.take (min ((bytes.length : Int)).toNat (k.pipe_size - q.fifo.length))
        = bytes := by
      rw [hempty]
      simp only [Int.toNat_ofNat, List.length_nil, Nat.sub_zero]
      rw [List.take_of_length_le (by omega)]
    have hw1 := ptty_write_eq bytes (bytes.length : Int) none hw hwp
    rw [pipe_write_ok bytes _ hq, hdata, hempty, List.nil_append] at hw1
    have hr' : ext_of (set_fifo p bytes k) r = some er := hr
    have hq1 : pipe_find p (set_fifo p bytes k).pipes = some { q with fifo := bytes } := by
      rw [pipe_find_set_fifo, if_pos rfl, hq]
      rfl
    have hr1 := ptty_read_eq (bytes.length : Int) none hr' hrp
    rw [pipe_read_ok _ hq1] at hr1
    simp only [Int.toNat_ofNat, List.take_length] at hr1
    refine ⟨_, _, _, _, hw1, rfl, rfl, rfl, hr1, ?_, ?_, rfl, rfl⟩
    · simp
    · simp

/-- A write on an endpoint whose outbound channel differs from its inbound channel
leaves what a read on that endpoint returns unchanged. -/
theorem write_not_read_back {k : Kernel} {w a b : Nat} {ew : device_extension_t}
    (bytes : List Nat) (n len : Int) (hw : ext_of k w = some ew) (hin : ew.pipe_in = some a)
    (hout : ew.pipe_out = some b) (hab : a ≠ b) (hla : pipe_live k a) (hlb : pipe_live k b) :
    ∃ k1 r1 k2 r2 k3 r3, ptty_write k w bytes n none = .ok (k1, r1) ∧
      ptty_read k1 w len none = .ok (k2, r2) ∧ ptty_read k w len none = .ok (k3, r3) ∧
      r2 = r3 := by
  obtain ⟨qa, hqa⟩ := pipe_live_find hla
  obtain ⟨qb, hqb⟩ := pipe_live_find hlb
  have hw1 := ptty_write_eq bytes n none hw hout
  rw [pipe_write_ok bytes _ hqb] at hw1
  have hr3 := ptty_read_eq len none hw hin
  rw [pipe_read_ok _ hqa] at hr3
  have hq1 : pipe_find a (set_fifo b
      (qb.fifo ++ bytes.take (min n.toNat (k.pipe_size - qb.fifo.length))) k).pipes
      = some qa := by
    rw [pipe_find_set_fifo, if_neg hab, hqa]
  have hw' : ext_of (set_fifo b
      (qb.fifo ++ bytes.take (min n.toNat (k.pipe_size - qb.fifo.length))) k) w = some ew := hw
  have hr2 := ptty_read_eq len none hw' hin
  rw [pipe_read_ok _ hq1] at hr2
  exact ⟨_, _, _, _, _, _, hw1, hr2, hr3, rfl⟩

/-- C9, as the code and the FIFO model have it: in every reachable state, for a master
with a slave and bytes that fit a pipe, (1) if the master's outbound channel holds no
unread byte, writing the bytes on the master and reading as many on the slave
succeeds and yields exactly the bytes; (2) symmetrically from the slave to the master
when the master's inbound channel holds no unread byte; (3) on either endpoint, a read
after a write on that same endpoint returns what it would have returned without the
write. -/
theorem crossover_round_trip (k : Kernel) (hk : Reachable k) (m s : Nat)
    (e : device_extension_t) (bytes : List Nat)
    (he : ext_of k m = some e) (ht : e.type = PTTY_MASTER) (hs : e.slave = some s)
    (hfit : bytes.length ≤ k.pipe_size) :
    ∃ a b, e.pipe_in = some a ∧ e.pipe_out = some b ∧
      (fifo_of k b = some [] →
        ∃ k1 r1 k2 r2, ptty_write k m bytes (bytes.length : Int) none = .ok (k1, r1) ∧
          r1.ret = .IO_SUCCESS ∧ r1.status = .IO_SUCCESS ∧
          r1.infomation = (bytes.length : Int) ∧
          ptty_read k1 s (bytes.length : Int) none = .ok (k2, r2) ∧
          r2.ret = .IO_SUCCESS ∧ r2.status = .IO_SUCCESS ∧
          r2.infomation = (bytes.length : Int) ∧ r2.user_buffer = bytes) ∧
      (fifo_of k a = some [] →
        ∃ k1 r1 k2 r2, ptty_write k s bytes (bytes.length : Int) none = .ok (k1, r1) ∧
          r1.ret = .IO_SUCCESS ∧ r1.status = .IO_SUCCESS ∧
          r1.infomation = (bytes.length : Int) ∧
          ptty_read k1 m (bytes.length : Int) none = .ok (k2, r2) ∧
          r2.ret = .IO_SUCCESS ∧ r2.status = .IO_SUCCESS ∧
          r2.infomation = (bytes.length : Int) ∧ r2.user_buffer = bytes) ∧
      (∀ len : Int, ∃ k1 r1 k2 r2 k3 r3,
          ptty_write k m bytes (bytes.length : Int) none = .ok (k1, r1) ∧
          ptty_read k1 m len none = .ok (k2, r2) ∧ ptty_read k m len none = .ok (k3, r3) ∧
          r2 = r3) ∧
      (∀ len : Int, ∃ k1 r1 k2 r2 k3 r3,
          ptty_write k s bytes (bytes.length : Int) none = .ok (k1, r1) ∧
          ptty_read k1 s len none = .ok (k2, r2) ∧ ptty_read k s len none = .ok (k3, r3) ∧
          r2 = r3) := by
  have hi := Reachable_Inv hk
  obtain ⟨_, _, _, a, b, es, g1, g2, g3, g4, g5, g6, _, _, _, g10, g11⟩ :=
    Inv_master_slave hi he ht hs
  refine ⟨a, b, g1, g2, fun h0 => ?_, fun h0 => ?_, fun len => ?_, fun len => ?_⟩
  · exact write_then_read bytes he g2 g6 g10 h0 hfit
  · exact write_then_read bytes g6 g11 he g1 h0 hfit
  · exact write_not_read_back bytes _ len he g1 g2 g3 g4 g5
  · exact write_not_read_back bytes _ len g6 g10 g11 (fun c => g3 c.symm) g5 g4

/-- Witness of C9 as amended: `"hello"` through the fresh pair of master 0 and
slave 8. -/
theorem crossover_round_trip_witness :
    ∃ a b, (some 0 : Option Nat) = some a ∧ (some 1 : Option Nat) = some b ∧
      (fifo_of opened b = some [] →
        ∃ k1 r1 k2 r2, ptty_write opened 0 hello (hello.length : Int) none = .ok (k1, r1) ∧
          r1.ret = .IO_SUCCESS ∧ r1.status = .IO_SUCCESS ∧
          r1.infomation = (hello.length : Int) ∧
          ptty_read k1 8 (hello.length : Int) none = .ok (k2, r2) ∧
          r2.ret = .IO_SUCCESS ∧ r2.status = .IO_SUCCESS ∧
          r2.infomation = (hello.length : Int) ∧ r2.user_buffer = hello) ∧
      (fifo_of opened a = some [] →
        ∃ k1 r1 k2 r2, ptty_write opened 8 hello (hello.length : Int) none = .ok (k1, r1) ∧
          r1.ret = .IO_SUCCESS ∧ r1.status = .IO_SUCCESS ∧
          r1.infomation = (hello.length : Int) ∧
          ptty_read k1 0 (hello.length : Int) none = .ok (k2, r2) ∧
          r2.ret = .IO_SUCCESS ∧ r2.status = .IO_SUCCESS ∧
          r2.infomation = (hello.length : Int) ∧ r2.user_buffer = hello) ∧
      (∀ len : Int, ∃ k1 r1 k2 r2 k3 r3,
          ptty_write opened 0 hello (hello.length : Int) none = .ok (k1, r1) ∧
          ptty_read k1 0 len none = .ok (k2, r2) ∧ ptty_read opened 0 len none = .ok (k3, r3) ∧
          r2 = r3) ∧
      (∀ len : Int, ∃ k1 r1 k2 r2 k3 r3,
          ptty_write opened 8 hello (hello.length : Int) none = .ok (k1, r1) ∧
          ptty_read k1 8 len none = .ok (k2, r2) ∧ ptty_read opened 8 len none = .ok (k3, r3) ∧
          r2 = r3) :=
  crossover_round_trip opened Reachable_opened 0 8
    { locked := 0, slave := some 8, type := PTTY_MASTER, device_id := 0,
      pipe_in := some 0, pipe_out := some 1 } hello rfl rfl rfl (by decide)

/-- C9, as stated, fails: `residue` is reachable, its master 0 has the live slave 8,
and `"hello"` fits the channel (one byte of sixteen is in use); writing `"hello"` on
master 0 and reading five bytes on slave 8 succeeds and yields the unread byte `1`
followed by `"hell"`, not `"hello"`. -/
theorem crossover_round_trip_residue :
    Reachable residue ∧
    (∃ e, ext_of residue 0 = some e ∧ e.type = PTTY_MASTER ∧ e.slave = some 8 ∧
      e.pipe_out = some 1) ∧
    fifo_of residue 1 = some [1] ∧ residue.pipe_size = 16 ∧
    ∃ k1 r1 k2 r2, ptty_write residue 0 hello 5 none = .ok (k1, r1) ∧
      r1.ret = .IO_SUCCESS ∧ r1.infomation = 5 ∧
      ptty_read k1 8 5 none = .ok (k2, r2) ∧ r2.ret = .IO_SUCCESS ∧
      r2.user_buffer = [1, 104, 101, 108, 108] ∧ r2.user_buffer ≠ hello :=
  ⟨Reachable.step 0 (.IOREQ_WRITE [1] 1 none) Reachable_opened
      (rfl : dispatch opened 0 (.IOREQ_WRITE [1] 1 none) =
        .ok (residue, { ret := .IO_SUCCESS, status := .IO_SUCCESS, infomation := 1,
                        user_buffer := [], arg := none })),
    ⟨_, rfl, rfl, rfl, rfl⟩, rfl, rfl,
    _, _, _, _, rfl, rfl, rfl, rfl, rfl, rfl, by decide⟩

/-! ## Driver entry -/

theorem ptty_enter_loop_congr (reg reg' : Nat → iostatus_t) (n : Nat) :
    ∀ (i : Nat) (k : Kernel), (∀ j, i ≤ j → j < i + n → reg j = reg' j) →
      ptty_enter_loop reg n i k = ptty_enter_loop reg' n i k := by
  induction n with
  | zero => intro i k _; rfl
  | succ n ih =>
    intro i k h
    have hi : reg i = reg' i := h i (le_refl _) (by omega)
    have hrec : ∀ k', ptty_enter_loop reg n (i + 1) k' = ptty_enter_loop reg' n (i + 1) k' :=
      fun k' => ih (i + 1) k' (fun j h1 h2 => h j (by omega) (by omega))
    simp only [ptty_enter_loop, hi, hrec]

theorem ptty_enter_loop_size (reg : Nat → iostatus_t) (s : Nat) (n : Nat) :
    ∀ (i : Nat) (k : Kernel),
      ptty_enter_loop reg n i { k with pipe_size := s } =
        match ptty_enter_loop reg n i k with
        | .ok (st, k') => .ok (st, { k' with pipe_size := s })
        | .error f => .error f := by
  induction n with
  | zero => intro i k; rfl
  | succ n ih =>
    intro i k
    cases hr : reg i with
    | IO_FAILED => simp [ptty_enter_loop, io_create_device, hr]
    | IO_SUCCESS =>
      simp only [ptty_enter_loop, io_create_device, hr, ne_eq, not_true_eq_false, if_false]
      rw [← ih]
      rfl

theorem ptty_enter_ok (reg : Nat → iostatus_t) (n : Nat)
    (hreg : ∀ i, i < NR_PTM → reg i = .IO_SUCCESS) :
    ptty_enter reg (empty_kernel n) = .ok (.IO_SUCCESS, start n) := by
  have h : ptty_enter reg (empty_kernel n) =
      ptty_enter (fun _ => .IO_SUCCESS) (empty_kernel n) :=
    ptty_enter_loop_congr reg (fun _ => .IO_SUCCESS) NR_PTM 0 (empty_kernel n)
      (fun j _ h2 => hreg j (by omega))
  have h0 : ptty_enter_loop (fun _ => .IO_SUCCESS) NR_PTM 0 (empty_kernel 0) =
      .ok (.IO_SUCCESS, start 0) := by rfl
  have h1 := ptty_enter_loop_size (fun _ => .IO_SUCCESS) n NR_PTM 0 (empty_kernel 0)
  rw [h0] at h1
  exact h.trans h1

/-- C10: from the empty registry, when the registration of each of the 8 masters
succeeds, `ptty_enter` returns success; afterwards, for every `i < 8`, exactly one
registered device is a master with `device_id = i`: it is named `"ptm"` followed by the
decimal of `i`, has no slave and no channels; exactly 8 devices are registered, none
is a slave, and no pipe exists. -/
theorem ptty_enter_creates_masters (reg : Nat → iostatus_t) (n : Nat)
    (hreg : ∀ i, i < NR_PTM → reg i = .IO_SUCCESS) :
    ∃ k, ptty_enter reg (empty_kernel n) = .ok (.IO_SUCCESS, k) ∧
      (∀ i, i < NR_PTM →
        k.devices.filter (fun p => decide (p.2.device_extension.type = PTTY_MASTER ∧
            p.2.device_extension.device_id = (i : Int))) =
          [(i, { name := "ptm" ++ toString i, flags := 0,
                 device_extension :=
                   { locked := 0, slave := none, type := PTTY_MASTER, device_id := (i : Int),
                     pipe_in := none, pipe_out := none } })]) ∧
      k.devices.length = 8 ∧
      (∀ p ∈ k.devices, p.2.device_extension.type ≠ PTTY_SLAVE) ∧
      k.pipes = [] := by
  refine ⟨start n, ptty_enter_ok reg n hreg, fun i hi => ?_, rfl, ?_, rfl⟩
  · unfold NR_PTM at hi
    interval_cases i <;> rfl
  · intro p hp
    simp only [start, List.mem_map, List.mem_range] at hp
    obtain ⟨i, _, rfl⟩ := hp
    simp [master_object, PTTY_MASTER, PTTY_SLAVE]

/-- Witness of C10: every registration succeeds. -/
theorem ptty_enter_creates_masters_witness :
    ∃ k, ptty_enter (fun _ => .IO_SUCCESS) (empty_kernel 16) = .ok (.IO_SUCCESS, k) ∧
      (∀ i, i < NR_PTM →
        k.devices.filter (fun p => decide (p.2.device_extension.type = PTTY_MASTER ∧
            p.2.device_extension.device_id = (i : Int))) =
          [(i, { name := "ptm" ++ toString i, flags := 0,
                 device_extension :=
                   { locked := 0, slave := none, type := PTTY_MASTER, device_id := (i : Int),
                     pipe_in := none, pipe_out := none } })]) ∧
      k.devices.length = 8 ∧
      (∀ p ∈ k.devices, p.2.device_extension.type ≠ PTTY_SLAVE) ∧
      k.pipes = [] :=
  ptty_enter_creates_masters (fun _ => .IO_SUCCESS) 16 (fun _ _ => rfl)

/-! ## Control and close on a slave, and on a master without a slave -/

/-- C11: in every reachable state, `TIOCGPTN` and `TIOCSPTLCK` issued on a slave fail
with 0 transferred bytes, store nothing through the argument, and the state after the
call is the state before it (so no `locked` flag changes). -/
theorem ptty_devctl_on_slave_fails (k : Kernel) (hk : Reachable k) (s : Nat)
    (es : device_extension_t) (code : devctl_code) (arg : Nat)
    (he : ext_of k s = some es) (ht : es.type = PTTY_SLAVE)
    (hc : code = .TIOCGPTN ∨ code = .TIOCSPTLCK) :
    ptty_devctl k s code arg =
      .ok (k, { ret := .IO_FAILED, status := .IO_FAILED, infomation := 0,
                user_buffer := [], arg := none }) := by
  have hi := Reachable_Inv hk
  have hne : es.type ≠ PTTY_MASTER := by rw [ht]; decide
  have hsl := (hi.slave s es (Inv_handle_slave hi he hne) he).2.1
  rcases hc with rfl | rfl
  · exact ptty_devctl_gptn_none arg he hsl
  · exact ptty_devctl_lock_none arg he hsl

/-- Witness of C11: `TIOCSPTLCK` issued on slave 8. -/
theorem ptty_devctl_on_slave_fails_witness :
    ptty_devctl opened 8 .TIOCSPTLCK 0 =
      .ok (opened, { ret := .IO_FAILED, status := .IO_FAILED, infomation := 0,
                     user_buffer := [], arg := none }) :=
  ptty_devctl_on_slave_fails opened Reachable_opened 8 (slave_extension 0 0 1) .TIOCSPTLCK 0
    rfl rfl (Or.inr rfl)

/-- C12: closing a slave fails when its `locked` flag is set and succeeds when it is
clear, with 0 transferred bytes; in both cases the state after the call is the state
before it (the slave stays registered, no pipe is destroyed, the wiring and the
`locked` flag are untouched). -/
theorem ptty_close_slave_gate (k : Kernel) (s : Nat) (es : device_extension_t)
    (he : ext_of k s = some es) (ht : es.type = PTTY_SLAVE) :
    (es.locked ≠ 0 → ptty_close k s =
      .ok (k, { ret := .IO_FAILED, status := .IO_FAILED, infomation := 0,
                user_buffer := [], arg := none })) ∧
    (es.locked = 0 → ptty_close k s =
      .ok (k, { ret := .IO_SUCCESS, status := .IO_SUCCESS, infomation := 0,
                user_buffer := [], arg := none })) := by
  obtain ⟨d, hd, rfl⟩ := ext_of_some he
  have hne : d.device_extension.type ≠ PTTY_MASTER := by rw [ht]; decide
  rw [ptty_close_slave hd hne]
  refine ⟨fun h => ?_, fun h => ?_⟩
  · rw [if_pos h]; rfl
  · rw [if_neg (fun c => c h)]; rfl

/-- Witness of C12: the locked slave 8. -/
theorem ptty_close_slave_gate_witness :
    ((slave_extension 0 0 1).locked ≠ 0 → ptty_close opened 8 =
      .ok (opened, { ret := .IO_FAILED, status := .IO_FAILED, infomation := 0,
                     user_buffer := [], arg := none })) ∧
    ((slave_extension 0 0 1).locked = 0 → ptty_close opened 8 =
      .ok (opened, { ret := .IO_SUCCESS, status := .IO_SUCCESS, infomation := 0,
                     user_buffer := [], arg := none })) :=
  ptty_close_slave_gate opened 8 (slave_extension 0 0 1) rfl rfl

/-- C13, as the code has it: on a slave, `ptty_open` succeeds exactly when `locked` is
clear, `ptty_close` too succeeds exactly when `locked` is clear (it fails while the
slave is locked), and both leave the state, hence the `locked` flag, as it was. -/
theorem slave_lock_gates (k : Kernel) (s : Nat) (es : device_extension_t) (env : open_env)
    (he : ext_of k s = some es) (ht : es.type = PTTY_SLAVE) :
    ∃ r1 r2, ptty_open k s env = .ok (k, r1) ∧ (r1.ret = .IO_SUCCESS ↔ es.locked = 0) ∧
      ptty_close k s = .ok (k, r2) ∧ (r2.ret = .IO_SUCCESS ↔ es.locked = 0) := by
  obtain ⟨d, hd, rfl⟩ := ext_of_some he
  have hne : d.device_extension.type ≠ PTTY_MASTER := by rw [ht]; decide
  rw [ptty_open_slave env hd hne, ptty_close_slave hd hne]
  by_cases h : d.device_extension.locked = 0
  · rw [if_neg (fun c => c h)]
    exact ⟨_, _, rfl, ⟨fun _ => h, fun _ => rfl⟩, rfl, ⟨fun _ => h, fun _ => rfl⟩⟩
  · rw [if_pos h]
    exact ⟨_, _, rfl, ⟨fun c => by simp at c, fun c => absurd c h⟩, rfl,
      ⟨fun c => by simp at c, fun c => absurd c h⟩⟩

/-- Witness of C13 as amended: the locked slave 8. -/
theorem slave_lock_gates_witness :
    ∃ r1 r2, ptty_open opened 8 all_ok = .ok (opened, r1) ∧
      (r1.ret = .IO_SUCCESS ↔ (slave_extension 0 0 1).locked = 0) ∧
      ptty_close opened 8 = .ok (opened, r2) ∧
      (r2.ret = .IO_SUCCESS ↔ (slave_extension 0 0 1).locked = 0) :=
  slave_lock_gates opened 8 (slave_extension 0 0 1) all_ok rfl rfl

/-- C13, as stated, fails: slave 8 of `unlocked` is a slave whose `locked` is 0, and
`ptty_close` on it succeeds; on the locked slave 8 of `opened` it fails. -/
theorem ptty_close_succeeds_unlocked :
    (∃ es, ext_of unlocked 8 = some es ∧ es.type = PTTY_SLAVE ∧ es.locked = 0) ∧
    ptty_close unlocked 8 =
      .ok (unlocked, { ret := .IO_SUCCESS, status := .IO_SUCCESS, infomation := 0,
                       user_buffer := [], arg := none }) ∧
    (∃ es, ext_of opened 8 = some es ∧ es.type = PTTY_SLAVE ∧ es.locked = 1) ∧
    ptty_close opened 8 =
      .ok (opened, { ret := .IO_FAILED, status := .IO_FAILED, infomation := 0,
                     user_buffer := [], arg := none }) :=
  ⟨⟨_, rfl, rfl, rfl⟩, rfl, ⟨_, rfl, rfl, rfl⟩, rfl⟩

/-- C16: on a master that has no slave, `ptty_close`, `TIOCGPTN` and `TIOCSPTLCK` each
fail with 0 transferred bytes, store nothing through the argument, and the state after
the call is the state before it. -/
theorem master_without_slave_fails (k : Kernel) (m : Nat) (e : device_extension_t)
    (arg : Nat) (he : ext_of k m = some e) (ht : e.type = PTTY_MASTER)
    (hs : e.slave = none) :
    ptty_close k m =
      .ok (k, { ret := .IO_FAILED, status := .IO_FAILED, infomation := 0,
                user_buffer := [], arg := none }) ∧
    ptty_devctl k m .TIOCGPTN arg =
      .ok (k, { ret := .IO_FAILED, status := .IO_FAILED, infomation := 0,
                user_buffer := [], arg := none }) ∧
    ptty_devctl k m .TIOCSPTLCK arg =
      .ok (k, { ret := .IO_FAILED, status := .IO_FAILED, infomation := 0,
                user_buffer := [], arg := none }) := by
  refine ⟨?_, ptty_devctl_gptn_none arg he hs, ptty_devctl_lock_none arg he hs⟩
  obtain ⟨d, hd, rfl⟩ := ext_of_some he
  exact ptty_close_master_none hd ht hs

/-- Witness of C16: master 3 in the start state. -/
theorem master_without_slave_fails_witness :
    ptty_close (start 16) 3 =
      .ok (start 16, { ret := .IO_FAILED, status := .IO_FAILED, infomation := 0,
                       user_buffer := [], arg := none }) ∧
    ptty_devctl (start 16) 3 .TIOCGPTN 5 =
      .ok (start 16, { ret := .IO_FAILED, status := .IO_FAILED, infomation := 0,
                       user_buffer := [], arg := none }) ∧
    ptty_devctl (start 16) 3 .TIOCSPTLCK 5 =
      .ok (start 16, { ret := .IO_FAILED, status := .IO_FAILED, infomation := 0,
                       user_buffer := [], arg := none }) :=
  master_without_slave_fails (start 16) 3 (master_object 3).device_extension 5 rfl rfl rfl

/-- C17: on every registered endpoint, a control code other than `TIOCGPTN` and
`TIOCSPTLCK` reports success with 0 transferred bytes, stores nothing through the
argument, and the state after the call is the state before it. -/
theorem ptty_devctl_other_code (k : Kernel) (h : Nat) (e : device_extension_t)
    (code : devctl_code) (arg : Nat) (he : ext_of k h = some e)
    (h1 : code ≠ .TIOCGPTN) (h2 : code ≠ .TIOCSPTLCK) :
    ptty_devctl k h code arg =
      .ok (k, { ret := .IO_SUCCESS, status := .IO_SUCCESS, infomation := 0,
                user_buffer := [], arg := none }) := by
  obtain ⟨d, hd, rfl⟩ := ext_of_some he
  cases code with
  | TIOCGPTN => exact absurd rfl h1
  | TIOCSPTLCK => exact absurd rfl h2
  | other c => simp only [ptty_devctl, hd, complete]

/-- Witness of C17: code 21523 on the locked slave 8. -/
theorem ptty_devctl_other_code_witness :
    ptty_devctl opened 8 (.other 21523) 0 =
      .ok (opened, { ret := .IO_SUCCESS, status := .IO_SUCCESS, infomation := 0,
                     user_buffer := [], arg := none }) :=
  ptty_devctl_other_code opened 8 (slave_extension 0 0 1) (.other 21523) 0 rfl
    (by decide) (by decide)

/-! ## Driver exit -/

theorem dev_lookup_mem {h : Nat} {l : List (Nat × device_object_t)} {d : device_object_t}
    (hl : dev_lookup h l = some d) : ∃ p ∈ l, p.1 = h := by
  induction l with
  | nil => simp [dev_lookup] at hl
  | cons q rest ih =>
    obtain ⟨h', d'⟩ := q
    by_cases e : h' = h
    · exact ⟨(h', d'), List.mem_cons_self _ _, e⟩
    · simp only [dev_lookup, e, if_false] at hl
      obtain ⟨p, hp, hp1⟩ := ih hl
      exact ⟨p, List.mem_cons_of_mem _ hp, hp1⟩

theorem exit_fold (l : List (Nat × device_object_t)) :
    ∀ k : Kernel,
      (l.foldl (fun acc p => io_delete_device p.1 acc) k).pipes = k.pipes ∧
      (l.foldl (fun acc p => io_delete_device p.1 acc) k).pipe_size = k.pipe_size ∧
      ∀ h, dev_lookup h (l.foldl (fun acc p => io_delete_device p.1 acc) k).devices =
        if (∃ p ∈ l, p.1 = h) then none else dev_lookup h k.devices := by
  induction l with
  | nil => intro k; simp
  | cons q rest ih =>
    intro k
    obtain ⟨g1, g2, g3⟩ := ih (io_delete_device q.1 k)
    refine ⟨g1, g2, fun h => ?_⟩
    rw [List.foldl_cons, g3]
    rw [show (io_delete_device q.1 k).devices = dev_remove q.1 k.devices from rfl,
      dev_lookup_remove]
    by_cases c1 : ∃ p ∈ rest, p.1 = h
    · have c2 : ∃ p ∈ q :: rest, p.1 = h := by
        obtain ⟨p, hp, hp1⟩ := c1
        exact ⟨p, List.mem_cons_of_mem _ hp, hp1⟩
      rw [if_pos c1, if_pos c2]
    · rw [if_neg c1]
      by_cases c3 : h = q.1
      · have c2 : ∃ p ∈ q :: rest, p.1 = h := ⟨q, List.mem_cons_self _ _, c3.symm⟩
        rw [if_pos c3, if_pos c2]
      · have c2 : ¬ ∃ p ∈ q :: rest, p.1 = h := by
          rintro ⟨p, hp, hp1⟩
          rcases List.mem_cons.mp hp with rfl | hp'
          · exact c3 hp1.symm
          · exact c1 ⟨p, hp', hp1⟩
        rw [if_neg c3, if_neg c2]

/-- C14, on the code: for every state `ptty_exit` returns success, leaves no device of
the driver registered and leaves the pipe table as it was; on the failing input
`opened`, where master 0 has slave 8 and channels 0 and 1, both channels are still
live after `ptty_exit`. -/
theorem ptty_exit_keeps_pipes :
    (∀ k : Kernel, (ptty_exit k).1 = .IO_SUCCESS ∧ (∀ h, ext_of (ptty_exit k).2 h = none) ∧
      (ptty_exit k).2.pipes = k.pipes) ∧
    (∃ e, ext_of opened 0 = some e ∧ e.slave = some 8 ∧ e.pipe_in = some 0 ∧
      e.pipe_out = some 1) ∧
    (ptty_exit opened).2.devices = [] ∧
    pipe_live (ptty_exit opened).2 0 ∧ pipe_live (ptty_exit opened).2 1 := by
  refine ⟨fun k => ⟨rfl, fun h => ?_, (exit_fold k.devices k).1⟩, ⟨_, rfl, rfl, rfl, rfl⟩, rfl,
    rfl, rfl⟩
  unfold ext_of
  rw [show (ptty_exit k).2.devices =
    (k.devices.foldl (fun acc p => io_delete_device p.1 acc) k).devices from rfl,
    (exit_fold k.devices k).2.2 h]
  by_cases c : ∃ p ∈ k.devices, p.1 = h
  · rw [if_pos c]; rfl
  · rw [if_neg c]
    cases hd : dev_lookup h k.devices with
    | none => rfl
    | some d => exact absurd (dev_lookup_mem hd) c

/-! ## Shape of the reachable states -/

/-- C18: in every reachable state (whatever allocations failed on the way), a master
has `slave`, `pipe_in` and `pipe_out` all empty or all present (the slave then being
registered and the two channels live); the `slave` field holds at most one slave, and
no slave is held by two masters; every registered slave has both channels present and
live. -/
theorem no_half_formed_triple (k : Kernel) (hk : Reachable k) :
    (∀ m e, ext_of k m = some e → e.type = PTTY_MASTER →
      (e.slave = none ∧ e.pipe_in = none ∧ e.pipe_out = none) ∨
      (∃ s a b, e.slave = some s ∧ e.pipe_in = some a ∧ e.pipe_out = some b ∧
        (ext_of k s).isSome = true ∧ pipe_live k a ∧ pipe_live k b)) ∧
    (∀ m e s1 s2, ext_of k m = some e → e.slave = some s1 → e.slave = some s2 → s1 = s2) ∧
    (∀ m1 m2 e1 e2 s, ext_of k m1 = some e1 → ext_of k m2 = some e2 →
      e1.type = PTTY_MASTER → e2.type = PTTY_MASTER →
      e1.slave = some s → e2.slave = some s → m1 = m2) ∧
    (∀ s es, ext_of k s = some es → es.type = PTTY_SLAVE →
      ∃ a b, es.pipe_in = some a ∧ es.pipe_out = some b ∧ pipe_live k a ∧ pipe_live k b) := by
  have hi := Reachable_Inv hk
  refine ⟨fun m e he ht => ?_, fun m e s1 s2 _ h1 h2 => ?_,
    fun m1 m2 e1 e2 s h1 h2 t1 t2 g1 g2 => ?_, fun s es he ht => ?_⟩
  · cases hs : e.slave with
    | none =>
      have hm := Inv_handle_master hi he ht
      obtain ⟨e', he', _, _, hnone, _⟩ := hi.master m hm
      rw [he] at he'
      simp only [Option.some.injEq] at he'
      subst he'
      exact Or.inl ⟨rfl, hnone hs⟩
    | some s =>
      obtain ⟨_, _, _, a, b, es, g1, g2, _, g4, g5, g6, _⟩ := Inv_master_slave hi he ht hs
      exact Or.inr ⟨s, a, b, rfl, g1, g2, by rw [g6]; rfl, g4, g5⟩
  · rw [h1] at h2
    exact Option.some.inj h2
  · obtain ⟨_, _, _, _, _, es1, _, _, _, _, _, x1, _, _, x2, _⟩ := Inv_master_slave hi h1 t1 g1
    obtain ⟨_, _, _, _, _, es2, _, _, _, _, _, y1, _, _, y2, _⟩ := Inv_master_slave hi h2 t2 g2
    rw [x1] at y1
    simp only [Option.some.injEq] at y1
    subst y1
    rw [x2] at y2
    omega
  · have hne : es.type ≠ PTTY_MASTER := by rw [ht]; decide
    obtain ⟨_, _, a, b, g1, g2, _, g4, g5⟩ := hi.slave s es (Inv_handle_slave hi he hne) he
    exact ⟨b, a, g2, g1, g5, g4⟩

/-- Witness of C18: the state in which master 0 was opened. -/
theorem no_half_formed_triple_witness :
    (∀ m e, ext_of opened m = some e → e.type = PTTY_MASTER →
      (e.slave = none ∧ e.pipe_in = none ∧ e.pipe_out = none) ∨
      (∃ s a b, e.slave = some s ∧ e.pipe_in = some a ∧ e.pipe_out = some b ∧
        (ext_of opened s).isSome = true ∧ pipe_live opened a ∧ pipe_live opened b)) ∧
    (∀ m e s1 s2, ext_of opened m = some e → e.slave = some s1 → e.slave = some s2 →
      s1 = s2) ∧
    (∀ m1 m2 e1 e2 s, ext_of opened m1 = some e1 → ext_of opened m2 = some e2 →
      e1.type = PTTY_MASTER → e2.type = PTTY_MASTER →
      e1.slave = some s → e2.slave = some s → m1 = m2) ∧
    (∀ s es, ext_of opened s = some es → es.type = PTTY_SLAVE →
      ∃ a b, es.pipe_in = some a ∧ es.pipe_out = some b ∧ pipe_live opened a ∧
        pipe_live opened b) :=
  no_half_formed_triple opened Reachable_opened

/-! ## Re-opening a master that has a slave -/

theorem pipe_find_open_old {k k' : Kernel} {a b id : Nat}
    (hp : k'.pipes = k.pipes ++ [{ id := a, fifo := [] }] ++ [{ id := b, fifo := [] }])
    (hl : pipe_live k id) : pipe_find id k'.pipes = pipe_find id k.pipes := by
  unfold pipe_live at hl
  rw [hp, pipe_find_append, pipe_find_append]
  simp only [hl, if_true]

/-- C19: in every reachable state, opening a master that already has a slave and a
channel pair, when both channel creations and the slave registration succeed, returns
success with 0 transferred bytes; the master afterwards refers to a slave and two
channels that did not exist before the call and exist after it; the slave it referred
to before is still registered, unchanged, the two channels it referred to before are
still live with their content, and none of the three is what the master refers to
now. -/
theorem ptty_open_master_again (k : Kernel) (hk : Reachable k) (m s : Nat)
    (e : device_extension_t) (env : open_env)
    (he : ext_of k m = some e) (ht : e.type = PTTY_MASTER) (hs : e.slave = some s)
    (h1 : env.pipe_in = true) (h2 : env.pipe_out = true) (h3 : env.create_dev = .IO_SUCCESS) :
    ∃ a b es k' r e' s' a' b', e.pipe_in = some a ∧ e.pipe_out = some b ∧
      ext_of k s = some es ∧
      ptty_open k m env = .ok (k', r) ∧
      r.ret = .IO_SUCCESS ∧ r.status = .IO_SUCCESS ∧ r.infomation = 0 ∧
      ext_of k' m = some e' ∧ e'.slave = some s' ∧ e'.pipe_in = some a' ∧
      e'.pipe_out = some b' ∧
      ext_of k s' = none ∧ ¬ pipe_live k a' ∧ ¬ pipe_live k b' ∧
      (ext_of k' s').isSome = true ∧ pipe_live k' a' ∧ pipe_live k' b' ∧
      ext_of k' s = some es ∧
      pipe_live k' a ∧ pipe_live k' b ∧
      pipe_find a k'.pipes = pipe_find a k.pipes ∧ pipe_find b k'.pipes = pipe_find b k.pipes ∧
      s' ≠ s ∧ a' ≠ a ∧ a' ≠ b ∧ b' ≠ a ∧ b' ≠ b := by
  have hi := Reachable_Inv hk
  obtain ⟨hm, h8, _, a, b, es, g1, g2, _, g4, g5, g6, _⟩ := Inv_master_slave hi he ht hs
  obtain ⟨d, hd, rfl⟩ := ext_of_some he
  obtain ⟨pin, pout, cd⟩ := env
  simp only at h1 h2 h3
  subst h1 h2 h3
  obtain ⟨k', ho, _, hp, hext⟩ := ptty_open_master_ok hd ht
  have hne : m ≠ fresh_dev k.devices := Nat.ne_of_lt (dev_lookup_lt_fresh hd)
  have hsf : s ≠ fresh_dev k.devices := Nat.ne_of_lt (ext_of_lt_fresh g6)
  have hm' := hext m
  rw [if_neg hne, if_pos rfl] at hm'
  have hs' := hext (fresh_dev k.devices)
  rw [if_pos rfl] at hs'
  have hold := hext s
  rw [if_neg hsf, if_neg (by omega), g6] at hold
  have hfresh : ext_of k (fresh_dev k.devices) = none := by
    unfold ext_of; rw [dev_lookup_fresh]; rfl
  have hab := fresh_pipe_lt_next k.pipes
  have hla := pipe_live_lt_fresh g4
  have hlb := pipe_live_lt_fresh g5
  have hlive := pipe_live_open hp
  have hna : ¬ pipe_live k (fresh_pipe k.pipes) := fun c =>
    absurd (pipe_live_lt_fresh c) (lt_irrefl _)
  have hnb : ¬ pipe_live k
      (fresh_pipe (k.pipes ++ [{ id := fresh_pipe k.pipes, fifo := [] }])) := fun c => by
    have := pipe_live_lt_fresh c
    omega
  refine ⟨a, b, es, k', _, _, fresh_dev k.devices, fresh_pipe k.pipes,
    fresh_pipe (k.pipes ++ [{ id := fresh_pipe k.pipes, fifo := [] }]), g1, g2, g6, ho, rfl, rfl,
    rfl, hm', rfl, rfl, rfl, hfresh, hna, hnb, by rw [hs']; rfl,
    (hlive _).2 (Or.inr (Or.inl rfl)), (hlive _).2 (Or.inr (Or.inr rfl)), hold,
    (hlive a).2 (Or.inl g4), (hlive b).2 (Or.inl g5), pipe_find_open_old hp g4,
    pipe_find_open_old hp g5, fun c => hsf c.symm, ?_, ?_, ?_, ?_⟩ <;> omega

/-- Witness of C19: master 0 opened a second time. -/
theorem ptty_open_master_again_witness :
    ∃ a b es k' r e' s' a' b', (some 0 : Option Nat) = some a ∧ (some 1 : Option Nat) = some b ∧
      ext_of opened 8 = some es ∧
      ptty_open opened 0 all_ok = .ok (k', r) ∧
      r.ret = .IO_SUCCESS ∧ r.status = .IO_SUCCESS ∧ r.infomation = 0 ∧
      ext_of k' 0 = some e' ∧ e'.slave = some s' ∧ e'.pipe_in = some a' ∧
      e'.pipe_out = some b' ∧
      ext_of opened s' = none ∧ ¬ pipe_live opened a' ∧ ¬ pipe_live opened b' ∧
      (ext_of k' s').isSome = true ∧ pipe_live k' a' ∧ pipe_live k' b' ∧
      ext_of k' 8 = some es ∧
      pipe_live k' a ∧ pipe_live k' b ∧
      pipe_find a k'.pipes = pipe_find a opened.pipes ∧
      pipe_find b k'.pipes = pipe_find b opened.pipes ∧
      s' ≠ 8 ∧ a' ≠ a ∧ a' ≠ b ∧ b' ≠ a ∧ b' ≠ b :=
  ptty_open_master_again opened Reachable_opened 0 8
    { locked := 0, slave := some 8, type := PTTY_MASTER, device_id := 0,
      pipe_in := some 0, pipe_out := some 1 } all_ok rfl rfl rfl rfl rfl rfl

/-! ## The absent-channel branch of read and write -/

theorem ptty_read_null {k : Kernel} {h : Nat} {e : device_extension_t} (len : Int)
    (err : Option Nat) (he : ext_of k h = some e) (hp : e.pipe_in = none) :
    ptty_read k h len err = .error .null_pipe := by
  obtain ⟨d, hd, rfl⟩ := ext_of_some he
  simp only [ptty_read, hd, hp]

theorem ptty_write_null {k : Kernel} {h : Nat} {e : device_extension_t} (buf : List Nat)
    (len : Int) (err : Option Nat) (he : ext_of k h = some e) (hp : e.pipe_out = none) :
    ptty_write k h buf len err = .error .null_pipe := by
  obtain ⟨d, hd, rfl⟩ := ext_of_some he
  simp only [ptty_write, hd, hp]

/-- In a state with the wiring invariant, an endpoint has both channels absent when
it is a master without a slave, and both present otherwise. -/
theorem Inv_channels {k : Kernel} (hi : Inv k) {h : Nat} {e : device_extension_t}
    (he : ext_of k h = some e) :
    (e.type = PTTY_MASTER ∧ e.slave = none ∧ e.pipe_in = none ∧ e.pipe_out = none) ∨
    (¬ (e.type = PTTY_MASTER ∧ e.slave = none) ∧ ∃ p q, e.pipe_in = some p ∧
      e.pipe_out = some q) := by
  by_cases ht : e.type = PTTY_MASTER
  · cases hs : e.slave with
    | none =>
      have hm := Inv_handle_master hi he ht
      obtain ⟨e', he', _, _, hnone, _⟩ := hi.master h hm
      rw [he] at he'
      simp only [Option.some.injEq] at he'
      subst he'
      exact Or.inl ⟨ht, rfl, hnone hs⟩
    | some s =>
      obtain ⟨_, _, _, a, b, _, g1, g2, _⟩ := Inv_master_slave hi he ht hs
      exact Or.inr ⟨fun c => by simp at c, a, b, g1, g2⟩
  · obtain ⟨_, _, a, b, g1, g2, _⟩ := hi.slave h e (Inv_handle_slave hi he ht) he
    exact Or.inr ⟨fun c => ht c.1, b, a, g2, g1⟩

/-- C20: in every reachable state, on a registered endpoint `ptty_read` and
`ptty_write` end in the absent-channel branch exactly when the endpoint is a master
without a slave; on a slave and on a master that has a slave both find their channel
and complete the request; every master of the start state is in the absent-channel
case, and so is a master after a successful close. -/
theorem null_pipe_iff_master_without_slave (k : Kernel) (hk : Reachable k) (h : Nat)
    (e : device_extension_t) (len : Int) (buf : List Nat) (n : Int) (err : Option Nat)
    (he : ext_of k h = some e) :
    (ptty_read k h len err = .error .null_pipe ↔ e.type = PTTY_MASTER ∧ e.slave = none) ∧
    (ptty_write k h buf n err = .error .null_pipe ↔ e.type = PTTY_MASTER ∧ e.slave = none) ∧
    (e.type = PTTY_SLAVE ∨ (e.type = PTTY_MASTER ∧ e.slave ≠ none) →
      ∃ p q k1 r1 k2 r2, e.pipe_in = some p ∧ e.pipe_out = some q ∧
        ptty_read k h len err = .ok (k1, r1) ∧ ptty_write k h buf n err = .ok (k2, r2)) ∧
    (∀ size m, m < NR_PTM →
      ptty_read (start size) m len err = .error .null_pipe ∧
      ptty_write (start size) m buf n err = .error .null_pipe) ∧
    (∀ k' r, e.type = PTTY_MASTER → ptty_close k h = .ok (k', r) → r.ret = .IO_SUCCESS →
      ptty_read k' h len err = .error .null_pipe ∧
      ptty_write k' h buf n err = .error .null_pipe) := by
  have hi := Reachable_Inv hk
  have hstart : ∀ size m, m < NR_PTM →
      ptty_read (start size) m len err = .error .null_pipe ∧
      ptty_write (start size) m buf n err = .error .null_pipe := by
    intro size m hm
    have hm' : ext_of (start size) m = some (master_object m).device_extension := by
      rw [ext_of_start, if_pos hm]
    exact ⟨ptty_read_null len err hm' rfl, ptty_write_null buf n err hm' rfl⟩
  have hclose : ∀ k' r, e.type = PTTY_MASTER → ptty_close k h = .ok (k', r) →
      r.ret = .IO_SUCCESS →
      ptty_read k' h len err = .error .null_pipe ∧
      ptty_write k' h buf n err = .error .null_pipe := by
    intro k' r ht hc hr
    obtain ⟨d, hd, hde⟩ := ext_of_some he
    cases hs : e.slave with
    | none =>
      rw [ptty_close_master_none hd (hde ▸ ht) (hde ▸ hs), complete] at hc
      simp only [Except.ok.injEq, Prod.mk.injEq] at hc
      obtain ⟨_, rfl⟩ := hc
      simp at hr
    | some s =>
      obtain ⟨_, h8, _, a, b, es, g1, g2, _, _, _, g6, _⟩ := Inv_master_slave hi he ht hs
      obtain ⟨ds, hds, _⟩ := ext_of_some g6
      have hm := Inv_handle_master hi he ht
      obtain ⟨k2, c1, _, _, c4⟩ := ptty_close_master_some hd (hde ▸ ht) (hde ▸ hs) hds
        (hde ▸ g1) (hde ▸ g2) (by omega)
      rw [c1, complete] at hc
      simp only [Except.ok.injEq, Prod.mk.injEq] at hc
      obtain ⟨rfl, _⟩ := hc
      have hm' := c4 h
      rw [if_neg (by omega), if_pos rfl] at hm'
      exact ⟨ptty_read_null len err hm' rfl, ptty_write_null buf n err hm' rfl⟩
  rcases Inv_channels hi he with ⟨ht, hs, p1, p2⟩ | ⟨hn, p, q, p1, p2⟩
  · refine ⟨⟨fun _ => ⟨ht, hs⟩, fun _ => ptty_read_null len err he p1⟩,
      ⟨fun _ => ⟨ht, hs⟩, fun _ => ptty_write_null buf n err he p2⟩, fun c => ?_, hstart, hclose⟩
    rcases c with c | ⟨_, c⟩
    · rw [ht] at c; simp [PTTY_MASTER, PTTY_SLAVE] at c
    · exact absurd hs c
  · have hr := ptty_read_eq len err he p1
    have hw := ptty_write_eq buf n err he p2
    refine ⟨⟨fun c => ?_, fun c => absurd c hn⟩, ⟨fun c => ?_, fun c => absurd c hn⟩,
      fun _ => ⟨p, q, _, _, _, _, p1, p2, hr, hw⟩, hstart, hclose⟩
    · rw [hr] at c; simp at c
    · rw [hw] at c; simp at c

/-- Witness of C20: master 0 of the state in which it was opened. -/
theorem null_pipe_iff_master_without_slave_witness :
    (ptty_read opened 0 5 none = .error .null_pipe ↔
      PTTY_MASTER = PTTY_MASTER ∧ (some 8 : Option Nat) = none) ∧
    (ptty_write opened 0 hello 5 none = .error .null_pipe ↔
      PTTY_MASTER = PTTY_MASTER ∧ (some 8 : Option Nat) = none) ∧
    (PTTY_MASTER = PTTY_SLAVE ∨ (PTTY_MASTER = PTTY_MASTER ∧ (some 8 : Option Nat) ≠ none) →
      ∃ p q k1 r1 k2 r2, (some 0 : Option Nat) = some p ∧ (some 1 : Option Nat) = some q ∧
        ptty_read opened 0 5 none = .ok (k1, r1) ∧
        ptty_write opened 0 hello 5 none = .ok (k2, r2)) ∧
    (∀ size m, m < NR_PTM →
      ptty_read (start size) m 5 none = .error .null_pipe ∧
      ptty_write (start size) m hello 5 none = .error .null_pipe) ∧
    (∀ k' r, PTTY_MASTER = PTTY_MASTER → ptty_close opened 0 = .ok (k', r) →
      r.ret = .IO_SUCCESS →
      ptty_read k' 0 5 none = .error .null_pipe ∧
      ptty_write k' 0 hello 5 none = .error .null_pipe) :=
  null_pipe_iff_master_without_slave opened Reachable_opened 0
    { locked := 0, slave := some 8, type := PTTY_MASTER, device_id := 0,
      pipe_in := some 0, pipe_out := some 1 } 5 hello 5 none rfl

/-! ## Who changes the lock -/

theorem ptty_devctl_cases {k k' : Kernel} {h : Nat} {code : devctl_code} {arg : Nat}
    {r : io_result} (hr : ptty_devctl k h code arg = .ok (k', r)) :
    k' = k ∨ (code = .TIOCSPTLCK ∧ ∃ e s, ext_of k h = some e ∧ e.slave = some s ∧
      k' = ext_write s (fun x => { x with locked := ulong_to_int arg }) k) := by
  unfold ptty_devctl at hr
  cases hd : dev_lookup h k.devices with
  | none => rw [hd] at hr; simp at hr
  | some d =>
    rw [hd] at hr
    cases code with
    | TIOCGPTN =>
      cases hs : d.device_extension.slave with
      | none =>
        simp only [hs, complete, Except.ok.injEq, Prod.mk.injEq] at hr
        exact Or.inl hr.1.symm
      | some s =>
        cases hds : dev_lookup s k.devices with
        | none => simp [hs, hds] at hr
        | some ds =>
          simp only [hs, hds, complete, Except.ok.injEq, Prod.mk.injEq] at hr
          exact Or.inl hr.1.symm
    | TIOCSPTLCK =>
      cases hs : d.device_extension.slave with
      | none =>
        simp only [hs, complete, Except.ok.injEq, Prod.mk.injEq] at hr
        exact Or.inl hr.1.symm
      | some s =>
        cases hds : dev_lookup s k.devices with
        | none => simp [hs, hds] at hr
        | some ds =>
          simp only [hs, hds, complete, Except.ok.injEq, Prod.mk.injEq] at hr
          exact Or.inr ⟨rfl, d.device_extension, s, ext_of_lookup hd, hs, hr.1.symm⟩
    | other c =>
      simp only [complete, Except.ok.injEq, Prod.mk.injEq] at hr
      exact Or.inl hr.1.symm

/-- A served request leaves the extension of a slave that is registered before and
after it as it was, unless the request is `TIOCSPTLCK` on the master that has this
slave, which stores the converted argument in `locked` and nothing else. -/
theorem slave_ext_step {k k' : Kernel} {r : io_result} {device s : Nat} {req : io_request_t}
    {es es' : device_extension_t} (hi : Inv k) (hs : dispatch k device req = .ok (k', r))
    (he : ext_of k s = some es) (ht : es.type = PTTY_SLAVE) (he' : ext_of k' s = some es') :
    es' = es ∨ ∃ v e, req = .IOREQ_DEVCTL .TIOCSPTLCK v ∧ ext_of k device = some e ∧
      e.type = PTTY_MASTER ∧ e.slave = some s ∧ e.device_id = es.device_id ∧
      es' = { es with locked := ulong_to_int v } := by
  have hne : es.type ≠ PTTY_MASTER := by rw [ht]; decide
  have hs8 := Inv_handle_slave hi he hne
  have same : ext_of k' s = ext_of k s → es' = es := fun c => by
    rw [he', he] at c
    exact Option.some.inj c
  cases req with
  | IOREQ_OPEN env =>
    simp only [dispatch] at hs
    cases hd : dev_lookup device k.devices with
    | none => simp [ptty_open, hd] at hs
    | some d =>
      by_cases htd : d.device_extension.type = PTTY_MASTER
      · by_cases hok : env.pipe_in = true ∧ env.pipe_out = true ∧ env.create_dev = .IO_SUCCESS
        · obtain ⟨pin, pout, cd⟩ := env
          obtain ⟨rfl, rfl, rfl⟩ := hok
          obtain ⟨k2, h1, _, _, h4⟩ := ptty_open_master_ok hd htd
          rw [h1, complete] at hs
          simp only [Except.ok.injEq, Prod.mk.injEq] at hs
          obtain ⟨rfl, _⟩ := hs
          have hm := Inv_handle_master hi (ext_of_lookup hd) htd
          have hsf : s ≠ fresh_dev k.devices := Nat.ne_of_lt (ext_of_lt_fresh he)
          refine Or.inl (same ?_)
          rw [h4, if_neg hsf, if_neg (by omega)]
        · obtain ⟨st, _, h1⟩ := ptty_open_master_fail env hd htd hok
          rw [h1, complete] at hs
          simp only [Except.ok.injEq, Prod.mk.injEq] at hs
          obtain ⟨rfl, _⟩ := hs
          exact Or.inl (same rfl)
      · rw [ptty_open_slave env hd htd, complete] at hs
        simp only [Except.ok.injEq, Prod.mk.injEq] at hs
        obtain ⟨rfl, _⟩ := hs
        exact Or.inl (same rfl)
  | IOREQ_CLOSE =>
    simp only [dispatch] at hs
    cases hd : dev_lookup device k.devices with
    | none => simp [ptty_close, hd] at hs
    | some d =>
      by_cases htd : d.device_extension.type = PTTY_MASTER
      · cases hsl : d.device_extension.slave with
        | none =>
          rw [ptty_close_master_none hd htd hsl, complete] at hs
          simp only [Except.ok.injEq, Prod.mk.injEq] at hs
          obtain ⟨rfl, _⟩ := hs
          exact Or.inl (same rfl)
        | some s0 =>
          obtain ⟨hm, h8, _, a, b, es0, g1, g2, _, _, _, g6, _⟩ :=
            Inv_master_slave hi (ext_of_lookup hd) htd hsl
          obtain ⟨ds, hds, _⟩ := ext_of_some g6
          obtain ⟨k2, h1, _, _, h4⟩ := ptty_close_master_some hd htd hsl hds g1 g2 (by omega)
          rw [h1, complete] at hs
          simp only [Except.ok.injEq, Prod.mk.injEq] at hs
          obtain ⟨rfl, _⟩ := hs
          have hs0 : s ≠ s0 := fun c => by
            rw [h4, if_pos c] at he'
            simp at he'
          refine Or.inl (same ?_)
          rw [h4, if_neg hs0, if_neg (by omega)]
      · rw [ptty_close_slave hd htd, complete] at hs
        simp only [Except.ok.injEq, Prod.mk.injEq] at hs
        obtain ⟨rfl, _⟩ := hs
        exact Or.inl (same rfl)
  | IOREQ_READ length err =>
    obtain ⟨h1, _, _⟩ := ptty_read_effect hs
    exact Or.inl (same (by unfold ext_of; rw [h1]))
  | IOREQ_WRITE buf length err =>
    obtain ⟨h1, _, _⟩ := ptty_write_effect hs
    exact Or.inl (same (by unfold ext_of; rw [h1]))
  | IOREQ_DEVCTL code arg =>
    rcases ptty_devctl_cases hs with h | ⟨rfl, e, s0, g1, g2, h⟩
    · exact Or.inl (same (by rw [h]))
    · by_cases c : s = s0
      · subst c
        have hte : e.type = PTTY_MASTER := by
          by_contra hc
          have := (hi.slave device e (Inv_handle_slave hi g1 hc) g1).2.1
          rw [g2] at this
          simp at this
        obtain ⟨_, _, x3, _, _, es1, _, _, _, _, _, x1, _, _, x2, _⟩ :=
          Inv_master_slave hi g1 hte g2
        rw [he] at x1
        simp only [Option.some.injEq] at x1
        subst x1
        refine Or.inr ⟨arg, e, rfl, g1, hte, g2, by rw [x3, x2], ?_⟩
        rw [h, ext_of_ext_write, if_pos rfl, he] at he'
        simp only [Option.map_some', Option.some.injEq] at he'
        exact he'.symm
      · refine Or.inl (same ?_)
        rw [h, ext_of_ext_write, if_neg c]

/-- C15: in every reachable state, for a slave registered before and after a served
request (open, close, read, write or devctl on any endpoint), if its `locked` flag
after the request differs from the one before, then the request is `TIOCSPTLCK`
issued on the master that has this slave (a master with the slave's `device_id`), and
the new flag is the converted argument. -/
theorem locked_changes_only_by_lock_control (k k' : Kernel) (hk : Reachable k)
    (device s : Nat) (req : io_request_t) (r : io_result) (es es' : device_extension_t)
    (hs : dispatch k device req = .ok (k', r))
    (he : ext_of k s = some es) (ht : es.type = PTTY_SLAVE) (he' : ext_of k' s = some es')
    (hl : es'.locked ≠ es.locked) :
    ∃ v e, req = .IOREQ_DEVCTL .TIOCSPTLCK v ∧ ext_of k device = some e ∧
      e.type = PTTY_MASTER ∧ e.slave = some s ∧ e.device_id = es.device_id ∧
      es'.locked = ulong_to_int v := by
  rcases slave_ext_step (Reachable_Inv hk) hs he ht he' with h | ⟨v, e, h1, h2, h3, h4, h5, h6⟩
  · rw [h] at hl
    exact absurd rfl hl
  · exact ⟨v, e, h1, h2, h3, h4, h5, by rw [h6]⟩

/-- Witness of C15: slave 8, locked in `opened`, is unlocked by `TIOCSPTLCK` with
argument 0 on master 0. -/
theorem locked_changes_only_by_lock_control_witness :
    ∃ v e, io_request_t.IOREQ_DEVCTL .TIOCSPTLCK 0 = .IOREQ_DEVCTL .TIOCSPTLCK v ∧
      ext_of opened 0 = some e ∧
      e.type = PTTY_MASTER ∧ e.slave = some 8 ∧
      e.device_id = (slave_extension 0 0 1).device_id ∧
      ({ slave_extension 0 0 1 with locked := 0 } : device_extension_t).locked =
        ulong_to_int v :=
  locked_changes_only_by_lock_control opened unlocked Reachable_opened 0 8
    (.IOREQ_DEVCTL .TIOCSPTLCK 0)
    { ret := .IO_SUCCESS, status := .IO_SUCCESS, infomation := 0, user_buffer := [], arg := none }
    (slave_extension 0 0 1) { slave_extension 0 0 1 with locked := 0 } rfl rfl rfl rfl
    (by decide)

end Ptty
